import Mathlib

/-!
Verification of the TripMate Provider Aggregation Engine
(`src/models/flights.py` and `src/models/hotels.py`).

The Python code is shallowly embedded: pure helpers become Lean functions,
the async fan-out / retry / cache logic becomes explicit state passing over
the data that the scheduler would have produced (provider result batches in
completion order, a timed-out flag, the cache contents).  Python `float`
values are modelled as rationals; the three float operations that have no
exact rational counterpart (`x ** 0.3`, `round(x, 3)`, `float(str)`
together with `str(float)` formatting) are abstracted into a `FloatModel`
parameter, so every theorem holds for every interpretation of those
operations.
-/

namespace TripMate

/-! ## String primitives

Python string operations (`lower`, `upper`, `strip`, substring test,
`split`) modelled over the character list of a `String`. -/

def strLower (s : String) : String :=
  String.mk (s.data.map Char.toLower)

def strUpper (s : String) : String :=
  String.mk (s.data.map Char.toUpper)

def isSpaceChar (c : Char) : Bool :=
  c = ' ' || c = '\t' || c = '\n' || c = '\r'

/-- Python `str.strip()`. -/
def strTrim (s : String) : String :=
  String.mk (((s.data.dropWhile isSpaceChar).reverse.dropWhile isSpaceChar).reverse)

/-- `pat` occurs as a prefix of `text` (over character lists). -/
def startsWithSeq : List Char → List Char → Bool
  | _, [] => true
  | [], _ :: _ => false
  | a :: as, b :: bs => a = b && startsWithSeq as bs

/-- Python `pat in text`: `pat` occurs contiguously inside `text`. -/
def hasSubSeq : List Char → List Char → Bool
  | [], pat => startsWithSeq [] pat
  | c :: rest, pat => startsWithSeq (c :: rest) pat || hasSubSeq rest pat

/-- Python `pat in text` on strings. -/
def strContains (text pat : String) : Bool :=
  hasSubSeq text.data pat.data

/-- Lexicographic `≤` on character lists (Python string comparison). -/
def charListLe : List Char → List Char → Bool
  | [], _ => true
  | _ :: _, [] => false
  | a :: as, b :: bs => if a = b then charListLe as bs else decide (a < b)

def strLe (a b : String) : Bool :=
  charListLe a.data b.data

/-- Stable ascending insertion for `sorted(...)` on strings. -/
def insertStrAsc (x : String) : List String → List String
  | [] => [x]
  | y :: ys => if strLe x y then x :: y :: ys else y :: insertStrAsc x ys

/-- Python `sorted(...)` on strings. -/
def sortStrings (l : List String) : List String :=
  l.foldr insertStrAsc []

def strIntercalate (sep : String) : List String → String
  | [] => ""
  | [x] => x
  | x :: y :: rest => x ++ sep ++ strIntercalate sep (y :: rest)

def digitChar (n : ℕ) : Char :=
  Char.ofNat (48 + n)

def natToCharsAux : ℕ → ℕ → List Char
  | 0, _ => []
  | fuel + 1, n => if n < 10 then [digitChar n] else natToCharsAux fuel (n / 10) ++ [digitChar (n % 10)]

/-- Decimal rendering of a natural number (Python `str(int)` for `n ≥ 0`). -/
def natToStr (n : ℕ) : String :=
  String.mk (natToCharsAux (n + 1) n)

def intToStr (i : ℤ) : String :=
  if i < 0 then "-" ++ natToStr i.natAbs else natToStr i.natAbs

/-! ## Dates

`datetime.date` values; only construction, equality and `isoformat` are
used by the engine. -/

structure PyDate where
  year : ℕ
  month : ℕ
  day : ℕ
deriving DecidableEq

def padNat (width : ℕ) (n : ℕ) : String :=
  let s := natToStr n
  if s.data.length < width then String.mk (List.replicate (width - s.data.length) '0') ++ s else s

/-- Python `date.isoformat()`: `YYYY-MM-DD`. -/
def PyDate.isoformat (d : PyDate) : String :=
  padNat 4 d.year ++ "-" ++ padNat 2 d.month ++ "-" ++ padNat 2 d.day

/-! ## Float model

Python floats are modelled as `ℚ`.  The operations below have no exact
rational counterpart, so they are kept abstract; all theorems quantify over
an arbitrary interpretation. -/

structure FloatModel where
  /-- models `x ** 0.3` -/
  pow03 : ℚ → ℚ
  /-- models `round(x, 3)` -/
  round3 : ℚ → ℚ
  /-- models `float(s)` (`none` = `ValueError`) -/
  parseFloat : String → Option ℚ
  /-- models Python f-string formatting of a float -/
  fmtFloat : ℚ → String

/-- A concrete interpretation used to instantiate theorems on concrete
inputs (any interpretation works for every theorem below). -/
def fm0 : FloatModel where
  pow03 := fun q => q
  round3 := fun q => q
  parseFloat := fun _ => none
  fmtFloat := fun _ => ""

/-! ## Ordered association lists

Python `dict` (insertion-ordered, unique keys): lookup, in-place update,
append of a new key at the end, and `pop`. -/

def getAssoc {κ α : Type} [DecidableEq κ] : List (κ × α) → κ → Option α
  | [], _ => none
  | (k, v) :: rest, key => if k = key then some v else getAssoc rest key

def setAssoc {κ α : Type} [DecidableEq κ] : List (κ × α) → κ → α → List (κ × α)
  | [], key, v => [(key, v)]
  | (k, w) :: rest, key, v =>
      if k = key then (key, v) :: rest else (k, w) :: setAssoc rest key v

def eraseAssoc {κ α : Type} [DecidableEq κ] : List (κ × α) → κ → List (κ × α)
  | [], _ => []
  | (k, v) :: rest, key => if k = key then rest else (k, v) :: eraseAssoc rest key

/-! ## Generic deduplication

Both `dedupe_flights` and `dedupe_hotels` iterate over the options, keep a
`best_by_key` dict, and replace the stored option when the incoming one
wins the domain tie-break.  The shared shape is factored here; the two
domain instantiations below supply the key and the replacement test. -/

def dedupeStep {κ α : Type} [DecidableEq κ] (dkey : α → κ) (replaces : α → α → Bool)
    (m : List (κ × α)) (opt : α) : List (κ × α) :=
  let key := dkey opt
  match getAssoc m key with
  | none => m ++ [(key, opt)]
  | some current => if replaces current opt then setAssoc m key opt else m

def dedupeBy {κ α : Type} [DecidableEq κ] (dkey : α → κ) (replaces : α → α → Bool)
    (options : List α) : List α :=
  (options.foldl (dedupeStep dkey replaces) []).map Prod.snd

/-- Stable descending insertion (insert before the first strictly smaller
key, after equal keys): models Python `list.sort(key=..., reverse=True)`,
which is a stable descending sort. -/
def insertDescBy {α : Type} (key : α → ℚ) (x : α) : List α → List α
  | [] => [x]
  | y :: ys => if key y ≤ key x then x :: y :: ys else y :: insertDescBy key x ys

def sortDescBy {α : Type} (key : α → ℚ) (l : List α) : List α :=
  l.foldr (insertDescBy key) []

/-! ## Shared result-status enum

`FlightResultStatus` and `HotelResultStatus` are identical string enums
with values `tentative` and `final`. -/

inductive ResultStatus where
  | tentative
  | final
deriving DecidableEq

/-- `Money` (defined identically in both modules). -/
structure Money where
  amount : ℚ
  currency : String
deriving DecidableEq

/-- One attempt of a provider call: a result list, or a raised exception
carrying its textual payload. -/
inductive CallResult (α : Type) where
  | ok (items : List α)
  | err (message : String)
deriving DecidableEq

/-! ## Flights module (`src/models/flights.py`) -/

namespace Flights

def MAX_RESULTS_PER_AGENT : ℤ := 5
def PROVIDER_MAX_RETRIES : ℕ := 2

/-- `FlightSearchRequest`.  The pydantic `limit` validator (`clamp_limit`)
runs at construction; `limit` here carries the stored (already validated)
value, and `clamp_limit` below is the validator itself. -/
structure FlightSearchRequest where
  origin : String
  destination : String
  departure_date : PyDate
  return_date : Option PyDate := none
  cabin_class : Option String := none
  user_preference : Option String := none
  non_stop_only : Bool := false
  limit : ℤ := MAX_RESULTS_PER_AGENT
deriving DecidableEq

/-- The `limit` validator: `min(max(v, 1), MAX_RESULTS_PER_AGENT)`. -/
def clamp_limit (v : ℤ) : ℤ :=
  min (max v 1) MAX_RESULTS_PER_AGENT

/-- `FlightOption`.  `score` is the internal scoring annotation (set by the
ranker, read with `or 0.0` elsewhere). -/
structure FlightOption where
  id : String
  provider : String
  price : Money
  fare_class : String
  duration : String
  stops : ℤ
  carrier_code : Option String := none
  flight_number : Option String := none
  origin : Option String := none
  destination : Option String := none
  departure_date : Option PyDate := none
  score : Option ℚ := none
deriving DecidableEq

/-- `(opt.score or 0.0)`. -/
def scoreOr0 (o : FlightOption) : ℚ :=
  o.score.getD 0

/-- `_dedupe_key`: `(carrier_code, flight_number, departure_date, origin,
destination)`. -/
def flight_dedupe_key (option : FlightOption) :
    Option String × Option String × Option PyDate × Option String × Option String :=
  (option.carrier_code, option.flight_number, option.departure_date,
   option.origin, option.destination)

/-- The replacement test inside `dedupe_flights`.  `opt.price` and
`current.price` are pydantic models and hence always truthy, so the
known-price guard always passes; when the incoming option is not strictly
cheaper the comparison falls through to the score tie-break. -/
def flight_replaces (current opt : FlightOption) : Bool :=
  if opt.price.amount < current.price.amount then true
  else decide (scoreOr0 current < scoreOr0 opt)

/-- `dedupe_flights`. -/
def dedupe_flights (options : List FlightOption) : List FlightOption :=
  dedupeBy flight_dedupe_key flight_replaces options

/-- `_base_score` for flights. -/
def flight_base_score (fm : FloatModel) (option : FlightOption) : ℚ :=
  let price_component : ℚ :=
    if 0 < option.price.amount then 1 / option.price.amount else 0
  let stops_component : ℚ :=
    if option.stops = 0 then 1 else (1 / 2) / ((max option.stops 1 : ℤ) : ℚ)
  let duration_component : ℚ :=
    let d := (strLower option.duration).data
    if d.any (fun c => c = 'h') then
      let hours_part := d.takeWhile (fun c => ¬ c = 'h')
      let filtered := hours_part.filter (fun ch => ch.isDigit || ch = '.')
      match fm.parseFloat (String.mk filtered) with
      | some hours => if 0 < hours then 1 / hours else 0
      | none => 0
    else 0
  (6 / 10) * price_component + (25 / 100) * stops_component + (15 / 100) * duration_component

/-- `_apply_preference_bias` for flights.  `if not preference` is Python
truthiness: both `None` and the empty string leave the score unchanged. -/
def flight_apply_preference_bias (fm : FloatModel) (score : ℚ) (option : FlightOption)
    (preference : Option String) : ℚ :=
  match preference with
  | none => score
  | some p =>
    if p = "" then score
    else
      let pref := strLower p
      if pref = "cheapest" then
        if 0 < option.price.amount then score + (1 / 2) / option.price.amount else score
      else if pref = "non-stop" then
        if option.stops = 0 then score + 3 / 10 else score
      else if pref = "comfort" then
        let s1 := score + (2 / 10) * ((max 0 (2 - option.stops) : ℤ) : ℚ)
        if 0 < option.price.amount then s1 + (2 / 10) * (1 / fm.pow03 option.price.amount)
        else s1
      else score

/-- `rank_flights`: score every option (mutating `score`), then a stable
descending sort on `(o.score or 0.0)`. -/
def rank_flights (fm : FloatModel) (options : List FlightOption)
    (preference : Option String) : List FlightOption :=
  let ranked := options.map (fun opt =>
    { opt with
      score := some (flight_apply_preference_bias fm (flight_base_score fm opt) opt preference) })
  sortDescBy scoreOr0 ranked

/-- `FlightsAgent._postprocess`: dedupe, rank, truncate.  `limit` is a
natural number here because every caller passes a validator-clamped value
(`≥ 1`), for which Python slicing agrees with `List.take`. -/
def postprocess (fm : FloatModel) (options : List FlightOption)
    (preference : Option String) (limit : ℕ) : List FlightOption :=
  if options.isEmpty then []
  else (rank_flights fm (dedupe_flights options) preference).take limit

/-- `_with_retries` for flights, unrolled over the attempt outcomes
(`attempts i` is the outcome of attempt `i`); returns the result together
with the number of attempts actually made.  The flights variant retries
every exception and returns `[]` once `retries` extra attempts have
failed; it inspects no error text. -/
def flights_with_retries_from (attempts : ℕ → CallResult α) :
    ℕ → ℕ → List α × ℕ
  | 0, i =>
    match attempts i with
    | .ok items => (items, i + 1)
    | .err _ => ([], i + 1)
  | remaining + 1, i =>
    match attempts i with
    | .ok items => (items, i + 1)
    | .err _ => flights_with_retries_from attempts remaining (i + 1)

def flights_with_retries (attempts : ℕ → CallResult α) (retries : ℕ) : List α × ℕ :=
  flights_with_retries_from attempts retries 0

/-- State of the `as_completed` fold inside `FlightsAgent.search`: the
running result pool, the `partial_emitted` flag, and the on_partial
invocations made so far. -/
structure FLoopState where
  results : List FlightOption
  tentativeEmitted : Bool
  emissions : List (ResultStatus × List FlightOption)

/-- One iteration of the `as_completed` loop: extend the pool with the
completed provider batch and, when a callback is present and nothing
tentative has been emitted yet, emit a `min(3, limit)`-capped tentative
snapshot as soon as the post-processed pool is non-empty. -/
def flights_search_loop_step (fm : FloatModel) (req : FlightSearchRequest)
    (hasCallback : Bool) (st : FLoopState) (batch : List FlightOption) : FLoopState :=
  let results := st.results ++ batch
  if hasCallback && !st.tentativeEmitted && !results.isEmpty then
    let tentative := postprocess fm results req.user_preference (min 3 req.limit).toNat
    if !tentative.isEmpty then
      { results := results, tentativeEmitted := true,
        emissions := st.emissions ++ [(ResultStatus.tentative, tentative)] }
    else { st with results := results }
  else { st with results := results }

/-- `FlightsAgent.search`, with the scheduler made explicit: `batches` are
the retry-wrapped provider results in completion order (each provider
contributes a list, never an exception), restricted to the providers that
completed before the agent deadline; `timedOut` records whether
`asyncio.wait_for` raised `TimeoutError`, in which case the `except`
branch sets `all_results = []`.  Returns the callback invocations in order
and the returned final list. -/
def flights_search_model (fm : FloatModel) (req : FlightSearchRequest)
    (batches : List (List FlightOption)) (hasCallback timedOut : Bool) :
    List (ResultStatus × List FlightOption) × List FlightOption :=
  let st := batches.foldl (flights_search_loop_step fm req hasCallback) ⟨[], false, []⟩
  let all_results := if timedOut then [] else st.results
  let final := postprocess fm all_results req.user_preference req.limit.toNat
  let emissions :=
    if hasCallback && !final.isEmpty then st.emissions ++ [(ResultStatus.final, final)]
    else st.emissions
  (emissions, final)

end Flights

/-! ## Hotels module (`src/models/hotels.py`) -/

namespace Hotels

def MAX_RESULTS_PER_AGENT : ℤ := 5
def PROVIDER_MAX_RETRIES : ℕ := 2
def HOTEL_CACHE_TTL_SECONDS : ℚ := 300

structure GeoPoint where
  lat : ℚ
  lon : ℚ
deriving DecidableEq

structure CheckinCheckoutTimes where
  checkin : Option String := none
  checkout : Option String := none
deriving DecidableEq

/-- `HotelSearchRequest` (post-validation, as for flights). -/
structure HotelSearchRequest where
  destination : Option String := none
  lat : Option ℚ := none
  lon : Option ℚ := none
  checkin_date : PyDate
  checkout_date : PyDate
  user_preference : Option String := none
  min_rating : Option ℚ := none
  star_rating_only : Option ℤ := none
  amenities_must_have : List String := []
  pets_allowed_only : Bool := false
  limit : ℤ := MAX_RESULTS_PER_AGENT
deriving DecidableEq

/-- The `limit` validator: `min(max(v, 1), MAX_RESULTS_PER_AGENT)`. -/
def clamp_limit (v : ℤ) : ℤ :=
  min (max v 1) MAX_RESULTS_PER_AGENT

/-- `HotelOption`.  `rating` is `Optional[float]` with default `0.0`; the
engine reads it numerically everywhere (a literal `None` would raise in
the source comparisons and never arrives past the model default), so the
comparisons below read it through `getD 0`. -/
structure HotelOption where
  id : String
  provider : String
  price : Option Money := none
  rating : Option ℚ := some 0
  amenities : List String := []
  location : GeoPoint := ⟨0, 0⟩
  checkin_checkout_times : Option CheckinCheckoutTimes := some {}
  name : Option String := none
  address : Option String := none
  distance_from_center_km : Option ℚ := none
  score : Option ℚ := none
deriving DecidableEq

def ratingQ (o : HotelOption) : ℚ :=
  o.rating.getD 0

/-- `(opt.score or 0.0)`. -/
def scoreOr0 (o : HotelOption) : ℚ :=
  o.score.getD 0

/-- The two shapes taken by `_dedupe_key` for hotels: `(name, address)`
when both are non-empty after strip/lower, else the coarse geo bucket
`(name, round(lat, 3), round(lon, 3))`. -/
inductive HotelKey where
  | nameAddr (name address : String)
  | nameGeo (name : String) (latB lonB : ℚ)
deriving DecidableEq

/-- `_dedupe_key` for hotels. -/
def hotel_dedupe_key (fm : FloatModel) (option : HotelOption) : HotelKey :=
  let name := strLower (strTrim (option.name.getD ""))
  let address := strLower (strTrim (option.address.getD ""))
  if name ≠ "" ∧ address ≠ "" then .nameAddr name address
  else .nameGeo name (fm.round3 option.location.lat) (fm.round3 option.location.lon)

/-- The replacement test inside `dedupe_hotels`: the incoming option
replaces the stored one when it has strictly higher rating, or equal
rating with both prices known and a strictly lower price; otherwise the
loop falls through to the score tie-break (which therefore also runs when
the incoming rating is strictly lower). -/
def hotel_replaces (current opt : HotelOption) : Bool :=
  let bothKnownCheaper : Bool :=
    match opt.price, current.price with
    | some p, some c => decide (p.amount < c.amount)
    | _, _ => false
  if ratingQ current < ratingQ opt then true
  else if decide (ratingQ opt = ratingQ current) && bothKnownCheaper then true
  else decide (scoreOr0 current < scoreOr0 opt)

/-- `dedupe_hotels`. -/
def dedupe_hotels (fm : FloatModel) (options : List HotelOption) : List HotelOption :=
  dedupeBy (hotel_dedupe_key fm) hotel_replaces options

/-- `_base_score` for hotels.  `option.rating / 5.0 if option.rating else
0.0` is Python truthiness: `None` and `0.0` both contribute zero. -/
def hotel_base_score (option : HotelOption) : ℚ :=
  let rating_component : ℚ :=
    match option.rating with
    | none => 0
    | some r => if r = 0 then 0 else r / 5
  let price_component : ℚ :=
    match option.price with
    | some p => if 0 < p.amount then 1 / p.amount else 0
    | none => 0
  let distance_component : ℚ :=
    match option.distance_from_center_km with
    | some d => max 0 (1 - d / 10)
    | none => 0
  (5 / 10) * rating_component + (3 / 10) * price_component + (2 / 10) * distance_component

/-- `_apply_preference_bias` for hotels. -/
def hotel_apply_preference_bias (fm : FloatModel) (score : ℚ) (option : HotelOption)
    (preference : Option String) : ℚ :=
  match preference with
  | none => score
  | some p =>
    if p = "" then score
    else
      let pref := strLower p
      if pref = "cheapest" then
        match option.price with
        | some pr => if 0 < pr.amount then score + (6 / 10) * (1 / pr.amount) else score
        | none => score
      else if pref = "luxury" then
        let s1 := score + (3 / 10) * (ratingQ option / 5)
        match option.price with
        | some pr => if 0 < pr.amount then s1 + (2 / 10) * fm.pow03 pr.amount else s1
        | none => s1
      else if pref = "high-rating" then score + (4 / 10) * (ratingQ option / 5)
      else score

/-- `rank_hotels`. -/
def rank_hotels (fm : FloatModel) (options : List HotelOption)
    (preference : Option String) : List HotelOption :=
  let ranked := options.map (fun opt =>
    { opt with
      score := some (hotel_apply_preference_bias fm (hotel_base_score opt) opt preference) })
  sortDescBy scoreOr0 ranked

/-- `HotelsAgent._postprocess`. -/
def postprocess (fm : FloatModel) (options : List HotelOption)
    (preference : Option String) (limit : ℕ) : List HotelOption :=
  if options.isEmpty then []
  else (rank_hotels fm (dedupe_hotels fm options) preference).take limit

/-- Default `tolerate_error_texts` of the hotels `_with_retries`. -/
def HOTEL_TOLERATE_ERROR_TEXTS : List String :=
  ["NO ROOMS", "NO ROOMS AVAILABLE", "INVALID PROPERTY", "INVALID PROPERTY CODE",
   "INVALID OR MISSING DATA"]

/-- `any(tok in text for tok in (t.upper() for t in tolerate_error_texts))`
with `text = str(exc).upper()`. -/
def isToleratedError (tolerate : List String) (message : String) : Bool :=
  tolerate.any (fun tok => strContains (strUpper message) (strUpper tok))

/-- `_with_retries` for hotels, unrolled over the attempt outcomes.  A
failure whose text contains a tolerated substring returns `[]` at once;
other failures retry, and exhaustion returns `[]`.  Second component:
number of attempts made. -/
def hotels_with_retries_from (attempts : ℕ → CallResult α) (tolerate : List String) :
    ℕ → ℕ → List α × ℕ
  | 0, i =>
    match attempts i with
    | .ok items => (items, i + 1)
    | .err _ => ([], i + 1)
  | remaining + 1, i =>
    match attempts i with
    | .ok items => (items, i + 1)
    | .err msg =>
        if isToleratedError tolerate msg then ([], i + 1)
        else hotels_with_retries_from attempts tolerate remaining (i + 1)

def hotels_with_retries (attempts : ℕ → CallResult α) (retries : ℕ)
    (tolerate : List String := HOTEL_TOLERATE_ERROR_TEXTS) : List α × ℕ :=
  hotels_with_retries_from attempts tolerate retries 0

/-- `_cache_key`: destination, rounded coordinates, dates and filters —
note that `user_preference` and `limit` are not part of the key. -/
def hotels_cache_key (fm : FloatModel) (request : HotelSearchRequest) : String :=
  let dest := strLower (request.destination.getD "")
  let lat := fm.round3 (request.lat.getD 0)
  let lon := fm.round3 (request.lon.getD 0)
  strIntercalate "|" [
    "dest:" ++ dest,
    "lat:" ++ fm.fmtFloat lat,
    "lon:" ++ fm.fmtFloat lon,
    "checkin:" ++ request.checkin_date.isoformat,
    "checkout:" ++ request.checkout_date.isoformat,
    "min_rating:" ++ (match request.min_rating with
                      | none => ""
                      | some r => if r = 0 then "" else fm.fmtFloat r),
    "stars:" ++ (match request.star_rating_only with
                 | none => ""
                 | some s => if s = 0 then "" else intToStr s),
    "pets:" ++ (if request.pets_allowed_only then "1" else "0"),
    "amenities:" ++ strIntercalate "," (sortStrings (request.amenities_must_have.map strLower))]

/-- `_CacheEntry`. -/
structure CacheEntry where
  expires_at : ℚ
  options : List HotelOption
deriving DecidableEq

/-- State of the fold over `asyncio.gather(..., return_exceptions=True)`
results inside `HotelsAgent.search`. -/
structure HLoopState where
  results : List HotelOption
  tentativeEmitted : Bool
  emissions : List (ResultStatus × List HotelOption)

/-- One iteration over a gathered provider outcome: an exception object
(including `CancelledError`) is logged and skipped; a result list extends
the pool and may trigger the single tentative emission. -/
def hotels_search_loop_step (fm : FloatModel) (req : HotelSearchRequest)
    (hasCallback : Bool) (st : HLoopState) (outcome : CallResult HotelOption) : HLoopState :=
  match outcome with
  | .err _ => st
  | .ok items =>
    let results := st.results ++ items
    if hasCallback && !st.tentativeEmitted && !results.isEmpty then
      let tentative := postprocess fm results req.user_preference (min 3 req.limit).toNat
      if !tentative.isEmpty then
        { results := results, tentativeEmitted := true,
          emissions := st.emissions ++ [(ResultStatus.tentative, tentative)] }
      else { st with results := results }
    else { st with results := results }

/-- The non-cache-hit path of `HotelsAgent.search`: fold the gathered
provider outcomes, discard the pool if the agent deadline fired
(`except asyncio.TimeoutError: all_results = []`), post-process, write the
cache entry only when caching is on and the final list is non-empty, and
emit the final response when a callback is present and the final list is
non-empty.  `now2` is the `time.time()` reading at cache-write time. -/
def hotels_provider_path (fm : FloatModel) (req : HotelSearchRequest)
    (cache1 : List (String × CacheEntry)) (key : String)
    (gathered : List (CallResult HotelOption)) (timedOut hasCallback useCache : Bool)
    (now2 : ℚ) :
    List (ResultStatus × List HotelOption) × List HotelOption × List (String × CacheEntry) :=
  let st := gathered.foldl (hotels_search_loop_step fm req hasCallback) ⟨[], false, []⟩
  let all_results := if timedOut then [] else st.results
  let final := postprocess fm all_results req.user_preference req.limit.toNat
  let cache2 :=
    if useCache && !final.isEmpty then
      setAssoc cache1 key ⟨now2 + HOTEL_CACHE_TTL_SECONDS, final⟩
    else cache1
  let emissions :=
    if hasCallback && !final.isEmpty then st.emissions ++ [(ResultStatus.final, final)]
    else st.emissions
  (emissions, final, cache2)

/-- `HotelsAgent.search` with the scheduler and clock made explicit.
`cache` is the agent's `_cache` dict, `now` the `time.time()` reading at
entry.  A fresh unexpired entry for the key is served truncated to the
request limit with a single final-status callback invocation; an expired
entry is popped before the provider fan-out runs.  Returns the callback
invocations in order, the returned list, and the cache afterwards. -/
def hotels_search_model (fm : FloatModel) (req : HotelSearchRequest)
    (cache : List (String × CacheEntry)) (now now2 : ℚ)
    (gathered : List (CallResult HotelOption)) (timedOut hasCallback useCache : Bool) :
    List (ResultStatus × List HotelOption) × List HotelOption × List (String × CacheEntry) :=
  let key := hotels_cache_key fm req
  match (if useCache then getAssoc cache key else none) with
  | some entry =>
    if now < entry.expires_at then
      let cached := entry.options.take req.limit.toNat
      let emissions :=
        if hasCallback && !cached.isEmpty then [(ResultStatus.final, cached)] else []
      (emissions, cached, cache)
    else
      hotels_provider_path fm req (eraseAssoc cache key) key gathered timedOut hasCallback
        useCache now2
  | none => hotels_provider_path fm req cache key gathered timedOut hasCallback useCache now2

end Hotels

/-! ## Auxiliary definitions used by the theorem statements -/

/-- Number of emissions with the given status. -/
def countStatus {α : Type} (st : ResultStatus) (l : List (ResultStatus × List α)) : ℕ :=
  (l.filter (fun e => e.1 == st)).length

/-- The values of the `FlightUserPreference` enum. -/
def flight_pref_values : List String :=
  ["cheapest", "non-stop", "comfort", "balanced"]

/-- The values of the `HotelUserPreference` enum. -/
def hotel_pref_values : List String :=
  ["cheapest", "luxury", "balanced", "high-rating"]

/-- Invariant of the `best_by_key` dict built by the deduplicators: keys
are pairwise distinct and every stored option is stored under its own
dedup key. -/
def GoodState {κ α : Type} (dkey : α → κ) (m : List (κ × α)) : Prop :=
  (m.map Prod.fst).Nodup ∧ ∀ p ∈ m, dkey p.2 = p.1

/-! ## Concrete inputs used by counterexamples and witnesses -/

/-- A flight option: 100 USD, non-stop, pre-bias score 0. -/
def cfA : Flights.FlightOption :=
  { id := "a", provider := "p1", price := ⟨100, "USD"⟩, fare_class := "Y", duration := "2h",
    stops := 0, carrier_code := some "AI", flight_number := some "302",
    origin := some "DEL", destination := some "BOM",
    departure_date := some ⟨2026, 1, 1⟩, score := some 0 }

/-- Same real-world flight as `cfA` from another provider: 200 USD,
pre-bias score 1. -/
def cfB : Flights.FlightOption :=
  { cfA with id := "b", provider := "p2", price := ⟨200, "USD"⟩, score := some 1 }

/-- A hotel option: rating 5, 80 EUR, pre-bias score 0. -/
def chA : Hotels.HotelOption :=
  { id := "ha", provider := "p1", price := some ⟨80, "EUR"⟩, rating := some 5,
    name := some "Grand Hotel", address := some "1 Main St", score := some 0 }

/-- Same real-world hotel as `chA`: rating 3, 90 EUR, pre-bias score 1. -/
def chB : Hotels.HotelOption :=
  { chA with
    id := "hb"
    provider := "p2"
    price := some ⟨90, "EUR"⟩
    rating := some 3
    score := some 1 }

/-- A flight request with all-default optional fields (`limit = 5`). -/
def fReq1 : Flights.FlightSearchRequest :=
  { origin := "DEL", destination := "BOM", departure_date := ⟨2026, 1, 1⟩ }

/-- A hotel request for Paris with preference `cheapest`. -/
def reqCheapest : Hotels.HotelSearchRequest :=
  { destination := some "Paris", checkin_date := ⟨2026, 1, 1⟩, checkout_date := ⟨2026, 1, 2⟩,
    user_preference := some "cheapest" }

/-- Identical to `reqCheapest` except for the preference. -/
def reqLuxury : Hotels.HotelSearchRequest :=
  { reqCheapest with user_preference := some "luxury" }

/-- A hotel option returned by a provider for the Paris requests. -/
def hOpt1 : Hotels.HotelOption :=
  { id := "h1", provider := "p1", price := some ⟨100, "EUR"⟩, rating := some 4,
    name := some "Grand Hotel", address := some "1 Rue" }

/-- A cache holding an already-expired entry for `reqCheapest`'s key. -/
def expiredCacheC10 : List (String × Hotels.CacheEntry) :=
  [(Hotels.hotels_cache_key fm0 reqCheapest, ⟨0, [hOpt1]⟩)]

/-- `hOpt1` as scored by the ranking pass of the `reqCheapest` search. -/
def scoredHOpt1C : Hotels.HotelOption :=
  { hOpt1 with
    score := some (Hotels.hotel_apply_preference_bias fm0 (Hotels.hotel_base_score hOpt1)
      hOpt1 (some "cheapest")) }

/-- The cache written by the `reqCheapest` search run at time 0. -/
def cacheAfterRun1 : List (String × Hotels.CacheEntry) :=
  [(Hotels.hotels_cache_key fm0 reqCheapest,
    ⟨(0 : ℚ) + Hotels.HOTEL_CACHE_TTL_SECONDS, [scoredHOpt1C]⟩)]

/-- Attempt outcomes that always fail with a tolerated business error. -/
def attemptsNoRooms : ℕ → CallResult Flights.FlightOption :=
  fun _ => .err "NO ROOMS AVAILABLE"

/-- Hotel attempt outcomes that always fail with a tolerated business
error. -/
def hotelAttemptsNoRooms : ℕ → CallResult Hotels.HotelOption :=
  fun _ => .err "Provider says: no rooms available for these dates"

/-- Attempt outcomes failing with a non-tolerated (transient) error. -/
def attemptsBoom : ℕ → CallResult Flights.FlightOption :=
  fun _ => .err "connection reset"

/-- Hotel attempt outcomes failing with a non-tolerated error. -/
def hotelAttemptsBoom : ℕ → CallResult Hotels.HotelOption :=
  fun _ => .err "connection reset"

/-! ## Association-list lemmas -/

section AssocLemmas

variable {κ α : Type} [DecidableEq κ]

theorem getAssoc_eq_none_of_forall (m : List (κ × α)) (k : κ)
    (h : ∀ p ∈ m, p.1 ≠ k) : getAssoc m k = none := by
  induction m with
  | nil => rfl
  | cons hd tl ih =>
    obtain ⟨k1, v1⟩ := hd
    have hk1 : k1 ≠ k := h (k1, v1) (List.mem_cons_self _ _)
    simp only [getAssoc, if_neg hk1]
    exact ih (fun p hp => h p (List.mem_cons_of_mem _ hp))

theorem forall_ne_of_getAssoc_eq_none (m : List (κ × α)) (k : κ)
    (h : getAssoc m k = none) : ∀ p ∈ m, p.1 ≠ k := by
  induction m with
  | nil => intro p hp; cases hp
  | cons hd tl ih =>
    obtain ⟨k1, v1⟩ := hd
    intro p hp
    by_cases hk1 : k1 = k
    · simp [getAssoc, hk1] at h
    · rcases List.mem_cons.1 hp with rfl | hp2
      · exact hk1
      · exact ih (by simpa [getAssoc, hk1] using h) p hp2

theorem mem_of_getAssoc_eq_some (m : List (κ × α)) (k : κ) (v : α)
    (h : getAssoc m k = some v) : (k, v) ∈ m := by
  induction m with
  | nil => cases h
  | cons hd tl ih =>
    obtain ⟨k1, v1⟩ := hd
    by_cases hk1 : k1 = k
    · subst hk1
      have h2 : v1 = v := by simpa [getAssoc] using h
      subst h2
      exact List.mem_cons_self _ _
    · exact List.mem_cons_of_mem _ (ih (by simpa [getAssoc, hk1] using h))

theorem mem_setAssoc (m : List (κ × α)) (k : κ) (v : α) (p : κ × α)
    (hp : p ∈ setAssoc m k v) : p ∈ m ∨ p = (k, v) := by
  induction m with
  | nil => simp only [setAssoc, List.mem_singleton] at hp; exact Or.inr hp
  | cons hd tl ih =>
    obtain ⟨k1, v1⟩ := hd
    by_cases hk1 : k1 = k
    · simp only [setAssoc, if_pos hk1, List.mem_cons] at hp
      rcases hp with rfl | hp2
      · exact Or.inr rfl
      · exact Or.inl (List.mem_cons_of_mem _ hp2)
    · simp only [setAssoc, if_neg hk1, List.mem_cons] at hp
      rcases hp with rfl | hp2
      · exact Or.inl (List.mem_cons_self _ _)
      · rcases ih hp2 with h2 | h2
        · exact Or.inl (List.mem_cons_of_mem _ h2)
        · exact Or.inr h2

theorem keys_setAssoc (m : List (κ × α)) (k : κ) (v : α) (w : α)
    (hmem : getAssoc m k = some w) :
    (setAssoc m k v).map Prod.fst = m.map Prod.fst := by
  induction m with
  | nil => cases hmem
  | cons hd tl ih =>
    obtain ⟨k1, v1⟩ := hd
    by_cases hk1 : k1 = k
    · subst hk1
      simp [setAssoc]
    · simp only [getAssoc, if_neg hk1] at hmem
      simp [setAssoc, if_neg hk1, ih hmem]

theorem getAssoc_setAssoc_self (m : List (κ × α)) (k : κ) (v : α) :
    getAssoc (setAssoc m k v) k = some v := by
  induction m with
  | nil => simp [setAssoc, getAssoc]
  | cons hd tl ih =>
    obtain ⟨k1, v1⟩ := hd
    by_cases hk1 : k1 = k
    · simp [setAssoc, if_pos hk1, getAssoc]
    · simp [setAssoc, if_neg hk1, getAssoc, hk1, ih]

theorem getAssoc_setAssoc_ne (m : List (κ × α)) (k k2 : κ) (v : α) (hne : k2 ≠ k) :
    getAssoc (setAssoc m k v) k2 = getAssoc m k2 := by
  induction m with
  | nil => simp [setAssoc, getAssoc, Ne.symm hne]
  | cons hd tl ih =>
    obtain ⟨k1, v1⟩ := hd
    by_cases hk1 : k1 = k
    · subst hk1
      simp [setAssoc, getAssoc, Ne.symm hne]
    · simp [setAssoc, if_neg hk1, getAssoc, ih]

theorem getAssoc_eraseAssoc_ne (m : List (κ × α)) (k k2 : κ) (hne : k2 ≠ k) :
    getAssoc (eraseAssoc m k) k2 = getAssoc m k2 := by
  induction m with
  | nil => rfl
  | cons hd tl ih =>
    obtain ⟨k1, v1⟩ := hd
    by_cases hk1 : k1 = k
    · subst hk1
      simp [eraseAssoc, getAssoc, Ne.symm hne]
    · simp [eraseAssoc, if_neg hk1, getAssoc, ih]

theorem getAssoc_eraseAssoc_self (m : List (κ × α)) (k : κ)
    (hnd : (m.map Prod.fst).Nodup) : getAssoc (eraseAssoc m k) k = none := by
  induction m with
  | nil => rfl
  | cons hd tl ih =>
    obtain ⟨k1, v1⟩ := hd
    simp only [List.map_cons, List.nodup_cons] at hnd
    by_cases hk1 : k1 = k
    · subst hk1
      simp only [eraseAssoc, if_pos rfl]
      apply getAssoc_eq_none_of_forall
      intro p hp heq
      exact hnd.1 (by rw [← heq]; exact List.mem_map_of_mem Prod.fst hp)
    · simp [eraseAssoc, if_neg hk1, getAssoc, hk1, ih hnd.2]

end AssocLemmas

/-! ## Deduplicator lemmas -/

section DedupeLemmas

variable {κ α : Type} [DecidableEq κ]

theorem dedupeStep_of_getAssoc_none (dkey : α → κ) (rep : α → α → Bool)
    (m : List (κ × α)) (x : α) (hg : getAssoc m (dkey x) = none) :
    dedupeStep dkey rep m x = m ++ [(dkey x, x)] := by
  simp only [dedupeStep, hg]

theorem dedupeStep_of_getAssoc_some (dkey : α → κ) (rep : α → α → Bool)
    (m : List (κ × α)) (x cur : α) (hg : getAssoc m (dkey x) = some cur) :
    dedupeStep dkey rep m x = if rep cur x then setAssoc m (dkey x) x else m := by
  simp only [dedupeStep, hg]

theorem dedupeStep_good (dkey : α → κ) (rep : α → α → Bool) (m : List (κ × α)) (x : α)
    (h : GoodState dkey m) : GoodState dkey (dedupeStep dkey rep m x) := by
  obtain ⟨hnd, hown⟩ := h
  cases hg : getAssoc m (dkey x) with
  | none =>
    rw [dedupeStep_of_getAssoc_none dkey rep m x hg]
    refine ⟨?_, ?_⟩
    · rw [List.map_append]
      refine List.Nodup.append hnd (List.nodup_singleton _) ?_
      simp only [List.map_singleton, List.disjoint_singleton]
      intro hmem
      obtain ⟨p, hp, hp2⟩ := List.mem_map.1 hmem
      exact forall_ne_of_getAssoc_eq_none m (dkey x) hg p hp hp2
    · intro p hp
      rcases List.mem_append.1 hp with h2 | h2
      · exact hown p h2
      · rw [List.mem_singleton.1 h2]
  | some cur =>
    rw [dedupeStep_of_getAssoc_some dkey rep m x cur hg]
    split
    · refine ⟨?_, ?_⟩
      · rw [keys_setAssoc m (dkey x) x cur hg]
        exact hnd
      · intro p hp
        rcases mem_setAssoc m (dkey x) x p hp with h2 | h2
        · exact hown p h2
        · rw [h2]
    · exact ⟨hnd, hown⟩

theorem foldl_dedupeStep_good (dkey : α → κ) (rep : α → α → Bool) (l : List α) :
    ∀ m : List (κ × α), GoodState dkey m →
      GoodState dkey (l.foldl (dedupeStep dkey rep) m) := by
  induction l with
  | nil => intro m h; exact h
  | cons x xs ih =>
    intro m h
    rw [List.foldl_cons]
    exact ih _ (dedupeStep_good dkey rep m x h)

theorem dedupeBy_keys_nodup (dkey : α → κ) (rep : α → α → Bool) (l : List α) :
    ((dedupeBy dkey rep l).map dkey).Nodup := by
  have hg : GoodState dkey (l.foldl (dedupeStep dkey rep) []) :=
    foldl_dedupeStep_good dkey rep l [] ⟨List.nodup_nil, by intro p hp; cases hp⟩
  unfold dedupeBy
  rw [List.map_map]
  have : (l.foldl (dedupeStep dkey rep) []).map (dkey ∘ Prod.snd)
      = (l.foldl (dedupeStep dkey rep) []).map Prod.fst :=
    List.map_congr_left (fun p hp => hg.2 p hp)
  rw [this]
  exact hg.1

theorem foldl_dedupeStep_of_fresh_keys (dkey : α → κ) (rep : α → α → Bool) :
    ∀ (l done : List α), (((done ++ l).map dkey).Nodup) →
      l.foldl (dedupeStep dkey rep) (done.map fun o => (dkey o, o))
        = (done ++ l).map fun o => (dkey o, o) := by
  intro l
  induction l with
  | nil => intro done _; simp
  | cons x xs ih =>
    intro done h
    have hnotin : dkey x ∉ done.map dkey := by
      intro hmem
      have h2 : ((done.map dkey) ++ dkey x :: xs.map dkey).Nodup := by
        simpa using h
      rw [List.nodup_middle] at h2
      exact (List.nodup_cons.1 h2).1 (List.mem_append.2 (Or.inl hmem))
    have hnone : getAssoc (done.map fun o => (dkey o, o)) (dkey x) = none := by
      apply getAssoc_eq_none_of_forall
      intro p hp
      obtain ⟨o, ho, rfl⟩ := List.mem_map.1 hp
      intro heq
      exact hnotin (heq ▸ List.mem_map_of_mem dkey ho)
    rw [List.foldl_cons]
    have hstep : dedupeStep dkey rep (done.map fun o => (dkey o, o)) x
        = (done ++ [x]).map fun o => (dkey o, o) := by
      rw [dedupeStep_of_getAssoc_none dkey rep _ x hnone]
      simp
    rw [hstep, ih (done ++ [x]) (by simpa using h)]
    simp

theorem dedupeBy_of_nodup_keys (dkey : α → κ) (rep : α → α → Bool) (l : List α)
    (h : (l.map dkey).Nodup) : dedupeBy dkey rep l = l := by
  unfold dedupeBy
  have h2 : l.foldl (dedupeStep dkey rep) [] = l.map fun o => (dkey o, o) := by
    simpa using foldl_dedupeStep_of_fresh_keys dkey rep l [] (by simpa using h)
  rw [h2, List.map_map]
  have h3 : ∀ xs : List α, xs.map (Prod.snd ∘ fun o => (dkey o, o)) = xs := by
    intro xs
    induction xs with
    | nil => rfl
    | cons a as iha => simp only [List.map_cons, iha, Function.comp_apply]
  exact h3 l

theorem dedupeBy_idem (dkey : α → κ) (rep : α → α → Bool) (l : List α) :
    dedupeBy dkey rep (dedupeBy dkey rep l) = dedupeBy dkey rep l :=
  dedupeBy_of_nodup_keys dkey rep _ (dedupeBy_keys_nodup dkey rep l)

theorem length_le_length_setAssoc (m : List (κ × α)) (k : κ) (v : α) :
    m.length ≤ (setAssoc m k v).length := by
  induction m with
  | nil => simp [setAssoc]
  | cons hd tl ih =>
    obtain ⟨k1, v1⟩ := hd
    by_cases hk1 : k1 = k
    · simp [setAssoc, if_pos hk1]
    · simpa [setAssoc, if_neg hk1] using ih

theorem length_le_length_dedupeStep (dkey : α → κ) (rep : α → α → Bool)
    (m : List (κ × α)) (x : α) : m.length ≤ (dedupeStep dkey rep m x).length := by
  cases hg : getAssoc m (dkey x) with
  | none =>
    rw [dedupeStep_of_getAssoc_none dkey rep m x hg]
    simp
  | some cur =>
    rw [dedupeStep_of_getAssoc_some dkey rep m x cur hg]
    split
    · exact length_le_length_setAssoc m (dkey x) x
    · exact le_refl _

theorem length_le_length_foldl_dedupeStep (dkey : α → κ) (rep : α → α → Bool) :
    ∀ (l : List α) (m : List (κ × α)),
      m.length ≤ (l.foldl (dedupeStep dkey rep) m).length := by
  intro l
  induction l with
  | nil => intro m; exact le_refl _
  | cons x xs ih =>
    intro m
    rw [List.foldl_cons]
    exact le_trans (length_le_length_dedupeStep dkey rep m x) (ih _)

theorem dedupeBy_ne_nil (dkey : α → κ) (rep : α → α → Bool) (l : List α)
    (h : l ≠ []) : dedupeBy dkey rep l ≠ [] := by
  obtain ⟨x, xs, rfl⟩ := List.exists_cons_of_ne_nil h
  unfold dedupeBy
  rw [List.foldl_cons]
  apply List.ne_nil_of_length_pos
  rw [List.length_map]
  have h1 : (dedupeStep dkey rep [] x).length = 1 := by
    rw [dedupeStep_of_getAssoc_none dkey rep [] x rfl]
    rfl
  have h2 := length_le_length_foldl_dedupeStep dkey rep xs (dedupeStep dkey rep [] x)
  omega

end DedupeLemmas

/-! ## Sorting and postprocess lemmas -/

section SortLemmas

variable {α : Type}

theorem length_insertDescBy (key : α → ℚ) (x : α) (l : List α) :
    (insertDescBy key x l).length = l.length + 1 := by
  induction l with
  | nil => rfl
  | cons y ys ih =>
    unfold insertDescBy
    split
    · simp
    · simp [ih]

theorem length_sortDescBy (key : α → ℚ) (l : List α) :
    (sortDescBy key l).length = l.length := by
  induction l with
  | nil => rfl
  | cons y ys ih =>
    unfold sortDescBy at ih ⊢
    rw [List.foldr_cons, length_insertDescBy, ih]
    simp

end SortLemmas

/-! ## Rank and postprocess lemmas -/

theorem length_rank_flights (fm : FloatModel) (opts : List Flights.FlightOption)
    (p : Option String) : (Flights.rank_flights fm opts p).length = opts.length := by
  unfold Flights.rank_flights
  rw [length_sortDescBy, List.length_map]

theorem length_rank_hotels (fm : FloatModel) (opts : List Hotels.HotelOption)
    (p : Option String) : (Hotels.rank_hotels fm opts p).length = opts.length := by
  unfold Hotels.rank_hotels
  rw [length_sortDescBy, List.length_map]

theorem length_postprocess_flights (fm : FloatModel) (opts : List Flights.FlightOption)
    (p : Option String) (n : ℕ) : (Flights.postprocess fm opts p n).length ≤ n := by
  unfold Flights.postprocess
  split
  · simp
  · exact List.length_take_le n _

theorem length_postprocess_hotels (fm : FloatModel) (opts : List Hotels.HotelOption)
    (p : Option String) (n : ℕ) : (Hotels.postprocess fm opts p n).length ≤ n := by
  unfold Hotels.postprocess
  split
  · simp
  · exact List.length_take_le n _

theorem postprocess_flights_ne_nil (fm : FloatModel) (opts : List Flights.FlightOption)
    (p : Option String) (n : ℕ) (h : opts ≠ []) (hn : 1 ≤ n) :
    Flights.postprocess fm opts p n ≠ [] := by
  unfold Flights.postprocess
  rw [if_neg (by simpa [List.isEmpty_iff] using h)]
  apply List.ne_nil_of_length_pos
  rw [List.length_take, length_rank_flights]
  exact lt_min (by omega)
    (List.length_pos.2 (dedupeBy_ne_nil _ _ _ h))

theorem postprocess_hotels_ne_nil (fm : FloatModel) (opts : List Hotels.HotelOption)
    (p : Option String) (n : ℕ) (h : opts ≠ []) (hn : 1 ≤ n) :
    Hotels.postprocess fm opts p n ≠ [] := by
  unfold Hotels.postprocess
  rw [if_neg (by simpa [List.isEmpty_iff] using h)]
  apply List.ne_nil_of_length_pos
  rw [List.length_take, length_rank_hotels]
  exact lt_min (by omega)
    (List.length_pos.2 (dedupeBy_ne_nil _ _ _ h))

/-! ## Retry-wrapper lemmas -/

theorem flights_retries_all_err {α : Type} (attempts : ℕ → CallResult α) :
    ∀ remaining i : ℕ, (∀ j, j ≤ i + remaining → ∃ m, attempts j = .err m) →
      Flights.flights_with_retries_from attempts remaining i = ([], i + remaining + 1) := by
  intro remaining
  induction remaining with
  | zero =>
    intro i h
    obtain ⟨m, hm⟩ := h i (by omega)
    simp [Flights.flights_with_retries_from, hm]
  | succ r ih =>
    intro i h
    obtain ⟨m, hm⟩ := h i (by omega)
    simp only [Flights.flights_with_retries_from, hm]
    rw [ih (i + 1) (fun j hj => h j (by omega))]
    have harith : i + 1 + r + 1 = i + (r + 1) + 1 := by omega
    rw [harith]

theorem hotels_retries_all_err {α : Type} (attempts : ℕ → CallResult α)
    (tolerate : List String) :
    ∀ remaining i : ℕ, (∀ j, j ≤ i + remaining → ∃ m, attempts j = .err m) →
      (Hotels.hotels_with_retries_from attempts tolerate remaining i).1 = []
      ∧ (Hotels.hotels_with_retries_from attempts tolerate remaining i).2 ≤ i + remaining + 1 := by
  intro remaining
  induction remaining with
  | zero =>
    intro i h
    obtain ⟨m, hm⟩ := h i (by omega)
    simp [Hotels.hotels_with_retries_from, hm]
  | succ r ih =>
    intro i h
    obtain ⟨m, hm⟩ := h i (by omega)
    simp only [Hotels.hotels_with_retries_from, hm]
    split
    · exact ⟨rfl, by omega⟩
    · obtain ⟨h1, h2⟩ := ih (i + 1) (fun j hj => h j (by omega))
      exact ⟨h1, by omega⟩

theorem hotels_retries_tolerated_first {α : Type} (attempts : ℕ → CallResult α)
    (tolerate : List String) (retries : ℕ) (msg : String)
    (h0 : attempts 0 = .err msg) (ht : Hotels.isToleratedError tolerate msg = true) :
    Hotels.hotels_with_retries attempts retries tolerate = ([], 1) := by
  cases retries with
  | zero => simp [Hotels.hotels_with_retries, Hotels.hotels_with_retries_from, h0]
  | succ r => simp [Hotels.hotels_with_retries, Hotels.hotels_with_retries_from, h0, ht]

/-! ## Search-model helper lemmas -/

theorem hotels_provider_path_final_len (fm : FloatModel) (req : Hotels.HotelSearchRequest)
    (cache1 : List (String × Hotels.CacheEntry)) (key : String)
    (gathered : List (CallResult Hotels.HotelOption)) (timedOut hasCallback useCache : Bool)
    (now2 : ℚ) :
    (Hotels.hotels_provider_path fm req cache1 key gathered timedOut hasCallback useCache
      now2).2.1.length ≤ req.limit.toNat := by
  simp only [Hotels.hotels_provider_path]
  exact length_postprocess_hotels fm _ req.user_preference req.limit.toNat

/-! ## Claim theorems -/

/-- C9: deduplication is idempotent — for every list of flight (resp.
hotel) options, applying the deduplicator to its own output yields exactly
the same list (hence the same set of items) as applying it once. -/
theorem C9_dedupe_idempotent :
    (∀ l : List Flights.FlightOption,
        Flights.dedupe_flights (Flights.dedupe_flights l) = Flights.dedupe_flights l)
    ∧ (∀ (fm : FloatModel) (l : List Hotels.HotelOption),
        Hotels.dedupe_hotels fm (Hotels.dedupe_hotels fm l) = Hotels.dedupe_hotels fm l) :=
  ⟨fun l => dedupeBy_idem Flights.flight_dedupe_key Flights.flight_replaces l,
   fun fm l => dedupeBy_idem (Hotels.hotel_dedupe_key fm) Hotels.hotel_replaces l⟩

/-- C6: the `limit` validator clamps every caller-supplied value into
`[1, MAX_RESULTS]` (5) — it returns a value, never an error — and the
final list returned by either facade never exceeds the request's
(validated) limit. -/
theorem C6_limit_clamped_and_capped :
    (∀ v : ℤ,
        1 ≤ Flights.clamp_limit v ∧ Flights.clamp_limit v ≤ Flights.MAX_RESULTS_PER_AGENT
        ∧ 1 ≤ Hotels.clamp_limit v ∧ Hotels.clamp_limit v ≤ Hotels.MAX_RESULTS_PER_AGENT)
    ∧ (∀ (fm : FloatModel) (req : Flights.FlightSearchRequest)
        (batches : List (List Flights.FlightOption)) (hasCallback timedOut : Bool),
        (Flights.flights_search_model fm req batches hasCallback timedOut).2.length
          ≤ req.limit.toNat)
    ∧ (∀ (fm : FloatModel) (req : Hotels.HotelSearchRequest)
        (cache : List (String × Hotels.CacheEntry)) (now now2 : ℚ)
        (gathered : List (CallResult Hotels.HotelOption))
        (timedOut hasCallback useCache : Bool),
        (Hotels.hotels_search_model fm req cache now now2 gathered timedOut hasCallback
          useCache).2.1.length ≤ req.limit.toNat) := by
  refine ⟨?_, ?_, ?_⟩
  · intro v
    simp only [Flights.clamp_limit, Flights.MAX_RESULTS_PER_AGENT,
      Hotels.clamp_limit, Hotels.MAX_RESULTS_PER_AGENT]
    omega
  · intro fm req batches hasCallback timedOut
    simp only [Flights.flights_search_model]
    exact length_postprocess_flights fm _ req.user_preference req.limit.toNat
  · intro fm req cache now now2 gathered timedOut hasCallback useCache
    simp only [Hotels.hotels_search_model]
    cases hif : (if useCache = true then getAssoc cache (Hotels.hotels_cache_key fm req)
        else none) with
    | none =>
      exact hotels_provider_path_final_len fm req cache _ gathered timedOut hasCallback
        useCache now2
    | some entry =>
      by_cases hexp : now < entry.expires_at
      · simp only [if_pos hexp]
        exact List.length_take_le _ _
      · simp only [if_neg hexp]
        exact hotels_provider_path_final_len fm req _ _ gathered timedOut hasCallback
          useCache now2

/-- C5: the retry wrappers absorb persistent provider failure — when every
attempt raises, the flights wrapper returns `[]` after exactly
`retries + 1` attempts and the hotels wrapper returns `[]` within
`retries + 1` attempts; neither propagates an exception (both are total
functions into result lists). -/
theorem C5_retry_absorbs_failures
    (retries : ℕ) (fa : ℕ → CallResult Flights.FlightOption)
    (ha : ℕ → CallResult Hotels.HotelOption) (tolerate : List String)
    (hfa : ∀ j, j ≤ retries → ∃ m, fa j = .err m)
    (hha : ∀ j, j ≤ retries → ∃ m, ha j = .err m) :
    Flights.flights_with_retries fa retries = ([], retries + 1)
    ∧ (Hotels.hotels_with_retries ha retries tolerate).1 = []
    ∧ (Hotels.hotels_with_retries ha retries tolerate).2 ≤ retries + 1 := by
  refine ⟨?_, ?_⟩
  · have h := flights_retries_all_err fa retries 0 (by simpa using hfa)
    simpa [Flights.flights_with_retries] using h
  · have h := hotels_retries_all_err ha tolerate retries 0 (by simpa using hha)
    simpa [Hotels.hotels_with_retries] using h

/-- Witness for C5: concrete always-failing providers with the default
`retries = 2`. -/
theorem C5_witness :
    Flights.flights_with_retries attemptsBoom 2 = ([], 3)
    ∧ (Hotels.hotels_with_retries hotelAttemptsBoom 2 Hotels.HOTEL_TOLERATE_ERROR_TEXTS).1 = []
    ∧ (Hotels.hotels_with_retries hotelAttemptsBoom 2 Hotels.HOTEL_TOLERATE_ERROR_TEXTS).2 ≤ 3 :=
  C5_retry_absorbs_failures 2 attemptsBoom hotelAttemptsBoom Hotels.HOTEL_TOLERATE_ERROR_TEXTS
    (fun _ _ => ⟨"connection reset", rfl⟩) (fun _ _ => ⟨"connection reset", rfl⟩)

/-- C4 counterexample: the claim asserts that in BOTH variants a tolerated
business-error message suppresses retries, but the flights `_with_retries`
inspects no error text: a provider failing persistently with
`"NO ROOMS AVAILABLE"` is retried to exhaustion — 3 attempts
(1 + `PROVIDER_MAX_RETRIES`), not 1. -/
theorem C4_counterexample :
    Flights.flights_with_retries attemptsNoRooms Flights.PROVIDER_MAX_RETRIES = ([], 3)
    ∧ (Flights.flights_with_retries attemptsNoRooms Flights.PROVIDER_MAX_RETRIES).2 ≠ 1 := by
  constructor
  · rfl
  · decide

/-- C4 (amended): only the hotels retry wrapper recognizes tolerated
business-error substrings — there it returns `[]` after the single failed
attempt, with no retry; the flights wrapper has no tolerated-error list
and instead retries every failure, absorbing it as `[]` after
`retries + 1` attempts. -/
theorem C4_tolerated_errors
    (retries : ℕ) (tolerate : List String) (msg : String)
    (ha : ℕ → CallResult Hotels.HotelOption) (h0 : ha 0 = .err msg)
    (ht : Hotels.isToleratedError tolerate msg = true)
    (fa : ℕ → CallResult Flights.FlightOption)
    (hfa : ∀ j, j ≤ retries → ∃ m, fa j = .err m) :
    Hotels.hotels_with_retries ha retries tolerate = ([], 1)
    ∧ Flights.flights_with_retries fa retries = ([], retries + 1) := by
  refine ⟨hotels_retries_tolerated_first ha tolerate retries msg h0 ht, ?_⟩
  have h := flights_retries_all_err fa retries 0 (by simpa using hfa)
  simpa [Flights.flights_with_retries] using h

/-- Witness for C4 (amended): a hotel provider failing with a message
containing "no rooms available" is not retried, while the flights wrapper
retries a transient failure to exhaustion. -/
theorem C4_witness :
    Hotels.hotels_with_retries hotelAttemptsNoRooms 2 Hotels.HOTEL_TOLERATE_ERROR_TEXTS = ([], 1)
    ∧ Flights.flights_with_retries attemptsBoom 2 = ([], 3) :=
  C4_tolerated_errors 2 Hotels.HOTEL_TOLERATE_ERROR_TEXTS
    "Provider says: no rooms available for these dates" hotelAttemptsNoRooms rfl (by decide)
    attemptsBoom (fun _ _ => ⟨"connection reset", rfl⟩)

/-- C3 counterexample: `cfA` and `cfB` share a dedup key and both prices
are known and unequal, yet the deduplicator retains `cfB`, whose price is
strictly HIGHER (its pre-bias score wins even though the documented
tie-break says a known strictly-lower price decides first). -/
theorem C3_counterexample :
    Flights.dedupe_flights [cfA, cfB] = [cfB]
    ∧ ¬ cfB.price.amount < cfA.price.amount
    ∧ cfB.price.amount ≠ cfA.price.amount := by
  decide

/-- C3 (amended): for two options sharing a dedup key, the retained one
satisfies only the weaker disjunction in which the score tie-break can
override the price (flights) or rating (hotels) preference: flights —
strictly lower price or pre-bias score at least the other's; hotels —
strictly higher rating, or equal rating with both prices known and
strictly lower price, or pre-bias score at least the other's. -/
theorem C3_pair_tie_break :
    (∀ a b r o : Flights.FlightOption,
        Flights.flight_dedupe_key a = Flights.flight_dedupe_key b →
        r = (if Flights.flight_replaces a b then b else a) →
        o = (if Flights.flight_replaces a b then a else b) →
        Flights.dedupe_flights [a, b] = [r]
        ∧ (r.price.amount < o.price.amount ∨ Flights.scoreOr0 o ≤ Flights.scoreOr0 r))
    ∧ (∀ (fm : FloatModel) (a b r o : Hotels.HotelOption),
        Hotels.hotel_dedupe_key fm a = Hotels.hotel_dedupe_key fm b →
        r = (if Hotels.hotel_replaces a b then b else a) →
        o = (if Hotels.hotel_replaces a b then a else b) →
        Hotels.dedupe_hotels fm [a, b] = [r]
        ∧ (Hotels.ratingQ o < Hotels.ratingQ r
           ∨ (Hotels.ratingQ r = Hotels.ratingQ o
              ∧ ∃ p c, r.price = some p ∧ o.price = some c ∧ p.amount < c.amount)
           ∨ Hotels.scoreOr0 o ≤ Hotels.scoreOr0 r)) := by
  constructor
  · intro a b r o hab hr ho
    have hpair : Flights.dedupe_flights [a, b]
        = [if Flights.flight_replaces a b then b else a] := by
      unfold Flights.dedupe_flights dedupeBy
      rw [List.foldl_cons, List.foldl_cons, List.foldl_nil,
        dedupeStep_of_getAssoc_none Flights.flight_dedupe_key Flights.flight_replaces [] a rfl]
      have hg1 : getAssoc [(Flights.flight_dedupe_key a, a)] (Flights.flight_dedupe_key b)
          = some a := by
        simp [getAssoc, hab]
      rw [List.nil_append,
        dedupeStep_of_getAssoc_some Flights.flight_dedupe_key Flights.flight_replaces _ b a hg1]
      by_cases hrep : Flights.flight_replaces a b
      · simp [hrep, setAssoc, hab]
      · simp [hrep]
    refine ⟨hr ▸ hpair, ?_⟩
    by_cases hrep : Flights.flight_replaces a b
    · rw [hr, ho, if_pos hrep, if_pos hrep]
      by_cases hp : b.price.amount < a.price.amount
      · exact Or.inl hp
      · simp only [Flights.flight_replaces, if_neg hp, decide_eq_true_eq] at hrep
        exact Or.inr hrep.le
    · rw [hr, ho, if_neg hrep, if_neg hrep]
      simp only [Flights.flight_replaces] at hrep
      by_cases hp : b.price.amount < a.price.amount
      · rw [if_pos hp] at hrep
        exact absurd rfl hrep
      · rw [if_neg hp] at hrep
        simp only [decide_eq_true_eq] at hrep
        exact Or.inr (not_lt.1 hrep)
  · intro fm a b r o hab hr ho
    have hpair : Hotels.dedupe_hotels fm [a, b]
        = [if Hotels.hotel_replaces a b then b else a] := by
      unfold Hotels.dedupe_hotels dedupeBy
      rw [List.foldl_cons, List.foldl_cons, List.foldl_nil,
        dedupeStep_of_getAssoc_none (Hotels.hotel_dedupe_key fm) Hotels.hotel_replaces [] a rfl]
      have hg1 : getAssoc [(Hotels.hotel_dedupe_key fm a, a)] (Hotels.hotel_dedupe_key fm b)
          = some a := by
        simp [getAssoc, hab]
      rw [List.nil_append,
        dedupeStep_of_getAssoc_some (Hotels.hotel_dedupe_key fm) Hotels.hotel_replaces _ b a hg1]
      by_cases hrep : Hotels.hotel_replaces a b
      · simp [hrep, setAssoc, hab]
      · simp [hrep]
    refine ⟨hr ▸ hpair, ?_⟩
    by_cases hrep : Hotels.hotel_replaces a b
    · rw [hr, ho, if_pos hrep, if_pos hrep]
      by_cases hrat : Hotels.ratingQ a < Hotels.ratingQ b
      · exact Or.inl hrat
      · simp only [Hotels.hotel_replaces, if_neg hrat] at hrep
        by_cases heq : (decide (Hotels.ratingQ b = Hotels.ratingQ a)
            && match b.price, a.price with
               | some p, some c => decide (p.amount < c.amount)
               | _, _ => false) = true
        · rw [Bool.and_eq_true, decide_eq_true_eq] at heq
          refine Or.inr (Or.inl ⟨heq.1, ?_⟩)
          cases hbp : b.price with
          | none => rw [hbp] at heq; cases hap : a.price <;> rw [hap] at heq <;> simp at heq
          | some p =>
            cases hap : a.price with
            | none => rw [hbp, hap] at heq; simp at heq
            | some c =>
              rw [hbp, hap] at heq
              simp only [decide_eq_true_eq] at heq
              exact ⟨p, c, rfl, rfl, heq.2⟩
        · rw [if_neg (by simpa using heq), decide_eq_true_eq] at hrep
          exact Or.inr (Or.inr hrep.le)
    · rw [hr, ho, if_neg hrep, if_neg hrep]
      simp only [Hotels.hotel_replaces] at hrep
      by_cases hrat : Hotels.ratingQ a < Hotels.ratingQ b
      · rw [if_pos hrat] at hrep; exact absurd rfl hrep
      · rw [if_neg hrat] at hrep
        split at hrep
        · exact absurd rfl hrep
        · simp only [decide_eq_true_eq] at hrep
          exact Or.inr (Or.inr (not_lt.1 hrep))

/-- Witness for C3 (amended) at the concrete pairs `cfA`/`cfB` and
`chA`/`chB`. -/
theorem C3_witness :
    (Flights.dedupe_flights [cfA, cfB] = [cfB]
      ∧ (cfB.price.amount < cfA.price.amount ∨ Flights.scoreOr0 cfA ≤ Flights.scoreOr0 cfB))
    ∧ (Hotels.dedupe_hotels fm0 [chA, chB] = [chB]
      ∧ (Hotels.ratingQ chA < Hotels.ratingQ chB
         ∨ (Hotels.ratingQ chB = Hotels.ratingQ chA
            ∧ ∃ p c, chB.price = some p ∧ chA.price = some c ∧ p.amount < c.amount)
         ∨ Hotels.scoreOr0 chA ≤ Hotels.scoreOr0 chB)) :=
  ⟨C3_pair_tie_break.1 cfA cfB cfB cfA (by decide) (by decide) (by decide),
   C3_pair_tie_break.2 fm0 chA chB chB chA (by decide) (by decide) (by decide)⟩

/-! ### Preference-bias helper lemmas -/

theorem flight_bias_of_unrecognized (fm : FloatModel) (sc : ℚ) (o : Flights.FlightOption)
    (p : Option String)
    (hp : p = none ∨ ∃ s, p = some s ∧ strLower s ∉ flight_pref_values) :
    Flights.flight_apply_preference_bias fm sc o p = sc := by
  rcases hp with rfl | ⟨s, rfl, hs⟩
  · rfl
  · simp only [flight_pref_values, List.mem_cons, List.not_mem_nil, or_false, not_or] at hs
    obtain ⟨h1, h2, h3, _⟩ := hs
    simp only [Flights.flight_apply_preference_bias]
    by_cases he : s = ""
    · rw [if_pos he]
    · rw [if_neg he, if_neg h1, if_neg h2, if_neg h3]

theorem flight_bias_balanced (fm : FloatModel) (sc : ℚ) (o : Flights.FlightOption) :
    Flights.flight_apply_preference_bias fm sc o (some "balanced") = sc := by
  simp only [Flights.flight_apply_preference_bias]
  rw [if_neg (by decide : ¬ ("balanced" = "")),
    if_neg (by decide : ¬ (strLower "balanced" = "cheapest")),
    if_neg (by decide : ¬ (strLower "balanced" = "non-stop")),
    if_neg (by decide : ¬ (strLower "balanced" = "comfort"))]

theorem hotel_bias_of_unrecognized (fm : FloatModel) (sc : ℚ) (o : Hotels.HotelOption)
    (p : Option String)
    (hp : p = none ∨ ∃ s, p = some s ∧ strLower s ∉ hotel_pref_values) :
    Hotels.hotel_apply_preference_bias fm sc o p = sc := by
  rcases hp with rfl | ⟨s, rfl, hs⟩
  · rfl
  · simp only [hotel_pref_values, List.mem_cons, List.not_mem_nil, or_false, not_or] at hs
    obtain ⟨h1, h2, _, h4⟩ := hs
    simp only [Hotels.hotel_apply_preference_bias]
    by_cases he : s = ""
    · rw [if_pos he]
    · rw [if_neg he, if_neg h1, if_neg h2, if_neg h4]

theorem hotel_bias_balanced (fm : FloatModel) (sc : ℚ) (o : Hotels.HotelOption) :
    Hotels.hotel_apply_preference_bias fm sc o (some "balanced") = sc := by
  simp only [Hotels.hotel_apply_preference_bias]
  rw [if_neg (by decide : ¬ ("balanced" = "")),
    if_neg (by decide : ¬ (strLower "balanced" = "cheapest")),
    if_neg (by decide : ¬ (strLower "balanced" = "luxury")),
    if_neg (by decide : ¬ (strLower "balanced" = "high-rating"))]

/-- C8: ranking with an absent preference, an empty-string preference or a
preference outside the recognized enum values assigns exactly the same
scores — and hence the same output list — as ranking with an explicit
`"balanced"` preference. -/
theorem C8_balanced_equivalence :
    (∀ (fm : FloatModel) (opts : List Flights.FlightOption) (p : Option String),
        (p = none ∨ ∃ s, p = some s ∧ strLower s ∉ flight_pref_values) →
        Flights.rank_flights fm opts p = Flights.rank_flights fm opts (some "balanced"))
    ∧ (∀ (fm : FloatModel) (opts : List Hotels.HotelOption) (p : Option String),
        (p = none ∨ ∃ s, p = some s ∧ strLower s ∉ hotel_pref_values) →
        Hotels.rank_hotels fm opts p = Hotels.rank_hotels fm opts (some "balanced")) := by
  constructor
  · intro fm opts p hp
    simp only [Flights.rank_flights]
    congr 1
    apply List.map_congr_left
    intro o _
    rw [flight_bias_of_unrecognized fm _ o p hp, flight_bias_balanced]
  · intro fm opts p hp
    simp only [Hotels.rank_hotels]
    congr 1
    apply List.map_congr_left
    intro o _
    rw [hotel_bias_of_unrecognized fm _ o p hp, hotel_bias_balanced]

/-- Witness for C8: a `None` preference and the unrecognized strings
`"fastest"` / `"pet-friendly"` rank identically to `"balanced"`. -/
theorem C8_witness :
    Flights.rank_flights fm0 [cfA, cfB] none
      = Flights.rank_flights fm0 [cfA, cfB] (some "balanced")
    ∧ Flights.rank_flights fm0 [cfA, cfB] (some "fastest")
      = Flights.rank_flights fm0 [cfA, cfB] (some "balanced")
    ∧ Hotels.rank_hotels fm0 [chA, chB] (some "pet-friendly")
      = Hotels.rank_hotels fm0 [chA, chB] (some "balanced") :=
  ⟨C8_balanced_equivalence.1 fm0 [cfA, cfB] none (Or.inl rfl),
   C8_balanced_equivalence.1 fm0 [cfA, cfB] (some "fastest")
     (Or.inr ⟨"fastest", rfl, by decide⟩),
   C8_balanced_equivalence.2 fm0 [chA, chB] (some "pet-friendly")
     (Or.inr ⟨"pet-friendly", rfl, by decide⟩)⟩

/-! ### Emission-counting helper lemmas -/

theorem countStatus_append {α : Type} (s : ResultStatus)
    (l1 l2 : List (ResultStatus × List α)) :
    countStatus s (l1 ++ l2) = countStatus s l1 + countStatus s l2 := by
  simp [countStatus, List.filter_append]

theorem countStatus_le_length {α : Type} (s : ResultStatus)
    (l : List (ResultStatus × List α)) : countStatus s l ≤ l.length :=
  List.length_filter_le _ l

theorem countStatus_final_eq_zero {α : Type} (l : List (ResultStatus × List α))
    (h : ∀ e ∈ l, e.1 = ResultStatus.tentative) :
    countStatus ResultStatus.final l = 0 := by
  rw [countStatus, List.length_eq_zero, List.filter_eq_nil_iff]
  intro e he
  rw [h e he]
  decide

theorem isEmpty_false_of_ne_nil {α : Type} (l : List α) (h : l ≠ []) : l.isEmpty = false := by
  cases hi : l.isEmpty
  · rfl
  · exact absurd (List.isEmpty_iff.1 hi) h

theorem append_isEmpty_false_left {α : Type} (l1 l2 : List α) (h : l1.isEmpty = false) :
    (l1 ++ l2).isEmpty = false := by
  apply isEmpty_false_of_ne_nil
  intro hh
  rw [(List.append_eq_nil.1 hh).1] at h
  cases h

theorem flights_step_no_emit (fm : FloatModel) (req : Flights.FlightSearchRequest)
    (hasCallback : Bool) (st : Flights.FLoopState) (batch : List Flights.FlightOption)
    (hcond : (hasCallback && !st.tentativeEmitted
        && !(st.results ++ batch).isEmpty) = false) :
    Flights.flights_search_loop_step fm req hasCallback st batch
      = { st with results := st.results ++ batch } := by
  simp only [Flights.flights_search_loop_step, hcond, Bool.false_eq_true, if_false]

theorem flights_step_emit (fm : FloatModel) (req : Flights.FlightSearchRequest)
    (hasCallback : Bool) (st : Flights.FLoopState) (batch : List Flights.FlightOption)
    (hcond : (hasCallback && !st.tentativeEmitted
        && !(st.results ++ batch).isEmpty) = true)
    (htent : (Flights.postprocess fm (st.results ++ batch) req.user_preference
        (min 3 req.limit).toNat).isEmpty = false) :
    Flights.flights_search_loop_step fm req hasCallback st batch
      = { results := st.results ++ batch, tentativeEmitted := true,
          emissions := st.emissions ++ [(ResultStatus.tentative,
            Flights.postprocess fm (st.results ++ batch) req.user_preference
              (min 3 req.limit).toNat)] } := by
  simp only [Flights.flights_search_loop_step, hcond, htent, Bool.not_false, if_true]

theorem flights_loop_step_inv (fm : FloatModel) (req : Flights.FlightSearchRequest)
    (hl : 1 ≤ req.limit) (st : Flights.FLoopState) (batch : List Flights.FlightOption)
    (h1 : st.tentativeEmitted = !st.results.isEmpty)
    (h2 : st.emissions.length = if st.tentativeEmitted then 1 else 0)
    (h3 : ∀ e ∈ st.emissions, e.1 = ResultStatus.tentative
        ∧ e.2.length ≤ (min 3 req.limit).toNat) :
    (Flights.flights_search_loop_step fm req true st batch).tentativeEmitted
        = !(Flights.flights_search_loop_step fm req true st batch).results.isEmpty
    ∧ ((Flights.flights_search_loop_step fm req true st batch).emissions.length
        = if (Flights.flights_search_loop_step fm req true st batch).tentativeEmitted then 1
          else 0)
    ∧ (∀ e ∈ (Flights.flights_search_loop_step fm req true st batch).emissions,
        e.1 = ResultStatus.tentative ∧ e.2.length ≤ (min 3 req.limit).toNat)
    ∧ (Flights.flights_search_loop_step fm req true st batch).results
        = st.results ++ batch := by
  have hcap : 1 ≤ (min 3 req.limit).toNat := by omega
  cases hemit : st.tentativeEmitted with
  | true =>
    have hres : st.results.isEmpty = false := by
      rw [hemit] at h1
      cases hi : st.results.isEmpty
      · rfl
      · rw [hi] at h1; cases h1
    have hres2 : (st.results ++ batch).isEmpty = false :=
      append_isEmpty_false_left _ _ hres
    have hcond : (true && !st.tentativeEmitted && !(st.results ++ batch).isEmpty) = false := by
      rw [hemit]
      rfl
    rw [flights_step_no_emit fm req true st batch hcond]
    refine ⟨?_, ?_, ?_, ?_⟩
    · show st.tentativeEmitted = !(st.results ++ batch).isEmpty
      rw [hemit, hres2]
      rfl
    · show st.emissions.length = _
      exact h2
    · show ∀ e ∈ st.emissions, _
      exact h3
    · rfl
  | false =>
    cases hres2 : (st.results ++ batch).isEmpty with
    | true =>
      have hcond : (true && !st.tentativeEmitted && !(st.results ++ batch).isEmpty) = false := by
        rw [hemit, hres2]
        rfl
      rw [flights_step_no_emit fm req true st batch hcond]
      refine ⟨?_, ?_, ?_, ?_⟩
      · show st.tentativeEmitted = !(st.results ++ batch).isEmpty
        rw [hemit, hres2]
        rfl
      · show st.emissions.length = _
        exact h2
      · show ∀ e ∈ st.emissions, _
        exact h3
      · rfl
    | false =>
      have hne : st.results ++ batch ≠ [] := by
        intro hh
        rw [hh] at hres2
        cases hres2
      have htent2 : (Flights.postprocess fm (st.results ++ batch) req.user_preference
          (min 3 req.limit).toNat).isEmpty = false :=
        isEmpty_false_of_ne_nil _ (postprocess_flights_ne_nil fm _ _ _ hne hcap)
      have hcond : (true && !st.tentativeEmitted && !(st.results ++ batch).isEmpty) = true := by
        rw [hemit, hres2]
        rfl
      rw [flights_step_emit fm req true st batch hcond htent2]
      have h20 : st.emissions.length = 0 := by
        rw [hemit] at h2
        simpa using h2
      refine ⟨?_, ?_, ?_, rfl⟩
      · show true = !(st.results ++ batch).isEmpty
        rw [hres2]
        rfl
      · show (st.emissions ++ [_]).length = _
        rw [List.length_append, h20]
        rfl
      · intro e he
        rcases List.mem_append.1 he with h | h
        · exact h3 e h
        · rw [List.mem_singleton.1 h]
          exact ⟨rfl, length_postprocess_flights fm _ _ _⟩

theorem flights_fold_inv (fm : FloatModel) (req : Flights.FlightSearchRequest)
    (hl : 1 ≤ req.limit) :
    ∀ (batches : List (List Flights.FlightOption)) (st : Flights.FLoopState),
      st.tentativeEmitted = !st.results.isEmpty →
      st.emissions.length = (if st.tentativeEmitted then 1 else 0) →
      (∀ e ∈ st.emissions, e.1 = ResultStatus.tentative
          ∧ e.2.length ≤ (min 3 req.limit).toNat) →
      (batches.foldl (Flights.flights_search_loop_step fm req true) st).tentativeEmitted
          = !(batches.foldl (Flights.flights_search_loop_step fm req true) st).results.isEmpty
      ∧ (batches.foldl (Flights.flights_search_loop_step fm req true) st).emissions.length
          = (if (batches.foldl (Flights.flights_search_loop_step fm req true)
                st).tentativeEmitted then 1 else 0)
      ∧ (∀ e ∈ (batches.foldl (Flights.flights_search_loop_step fm req true) st).emissions,
          e.1 = ResultStatus.tentative ∧ e.2.length ≤ (min 3 req.limit).toNat)
      ∧ (batches.foldl (Flights.flights_search_loop_step fm req true) st).results
          = st.results ++ batches.flatten := by
  intro batches
  induction batches with
  | nil =>
    intro st h1 h2 h3
    exact ⟨h1, h2, h3, by simp⟩
  | cons b bs ih =>
    intro st h1 h2 h3
    obtain ⟨g1, g2, g3, g4⟩ := flights_loop_step_inv fm req hl st b h1 h2 h3
    obtain ⟨k1, k2, k3, k4⟩ := ih (Flights.flights_search_loop_step fm req true st b) g1 g2 g3
    rw [List.foldl_cons]
    refine ⟨k1, k2, k3, ?_⟩
    rw [k4, g4]
    simp

theorem hotels_step_err (fm : FloatModel) (req : Hotels.HotelSearchRequest)
    (hasCallback : Bool) (st : Hotels.HLoopState) (msg : String) :
    Hotels.hotels_search_loop_step fm req hasCallback st (.err msg) = st := rfl

theorem hotels_step_no_emit (fm : FloatModel) (req : Hotels.HotelSearchRequest)
    (hasCallback : Bool) (st : Hotels.HLoopState) (items : List Hotels.HotelOption)
    (hcond : (hasCallback && !st.tentativeEmitted
        && !(st.results ++ items).isEmpty) = false) :
    Hotels.hotels_search_loop_step fm req hasCallback st (.ok items)
      = { st with results := st.results ++ items } := by
  simp only [Hotels.hotels_search_loop_step, hcond, Bool.false_eq_true, if_false]

theorem hotels_step_tentative_empty (fm : FloatModel) (req : Hotels.HotelSearchRequest)
    (hasCallback : Bool) (st : Hotels.HLoopState) (items : List Hotels.HotelOption)
    (hcond : (hasCallback && !st.tentativeEmitted
        && !(st.results ++ items).isEmpty) = true)
    (htent : (Hotels.postprocess fm (st.results ++ items) req.user_preference
        (min 3 req.limit).toNat).isEmpty = true) :
    Hotels.hotels_search_loop_step fm req hasCallback st (.ok items)
      = { st with results := st.results ++ items } := by
  simp only [Hotels.hotels_search_loop_step, hcond, htent, Bool.not_true, if_true,
    Bool.false_eq_true, if_false]

theorem hotels_step_emit (fm : FloatModel) (req : Hotels.HotelSearchRequest)
    (hasCallback : Bool) (st : Hotels.HLoopState) (items : List Hotels.HotelOption)
    (hcond : (hasCallback && !st.tentativeEmitted
        && !(st.results ++ items).isEmpty) = true)
    (htent : (Hotels.postprocess fm (st.results ++ items) req.user_preference
        (min 3 req.limit).toNat).isEmpty = false) :
    Hotels.hotels_search_loop_step fm req hasCallback st (.ok items)
      = { results := st.results ++ items, tentativeEmitted := true,
          emissions := st.emissions ++ [(ResultStatus.tentative,
            Hotels.postprocess fm (st.results ++ items) req.user_preference
              (min 3 req.limit).toNat)] } := by
  simp only [Hotels.hotels_search_loop_step, hcond, htent, Bool.not_false, if_true]

theorem hotels_loop_step_inv (fm : FloatModel) (req : Hotels.HotelSearchRequest)
    (st : Hotels.HLoopState) (outcome : CallResult Hotels.HotelOption)
    (h2 : st.emissions.length = if st.tentativeEmitted then 1 else 0)
    (h3 : ∀ e ∈ st.emissions, e.1 = ResultStatus.tentative
        ∧ e.2.length ≤ (min 3 req.limit).toNat) :
    ((Hotels.hotels_search_loop_step fm req true st outcome).emissions.length
        = if (Hotels.hotels_search_loop_step fm req true st outcome).tentativeEmitted then 1
          else 0)
    ∧ (∀ e ∈ (Hotels.hotels_search_loop_step fm req true st outcome).emissions,
        e.1 = ResultStatus.tentative ∧ e.2.length ≤ (min 3 req.limit).toNat) := by
  cases outcome with
  | err msg =>
    rw [hotels_step_err]
    exact ⟨h2, h3⟩
  | ok items =>
    cases hcond : (true && !st.tentativeEmitted && !(st.results ++ items).isEmpty) with
    | false =>
      rw [hotels_step_no_emit fm req true st items hcond]
      exact ⟨h2, h3⟩
    | true =>
      have hemit : st.tentativeEmitted = false := by
        cases he : st.tentativeEmitted
        · rfl
        · rw [he] at hcond
          cases hcond
      cases htent : (Hotels.postprocess fm (st.results ++ items) req.user_preference
          (min 3 req.limit).toNat).isEmpty with
      | true =>
        rw [hotels_step_tentative_empty fm req true st items hcond htent]
        exact ⟨h2, h3⟩
      | false =>
        rw [hotels_step_emit fm req true st items hcond htent]
        have h20 : st.emissions.length = 0 := by
          rw [hemit] at h2
          simpa using h2
        refine ⟨?_, ?_⟩
        · show (st.emissions ++ [_]).length = _
          rw [List.length_append, h20]
          rfl
        · intro e he
          rcases List.mem_append.1 he with h | h
          · exact h3 e h
          · rw [List.mem_singleton.1 h]
            exact ⟨rfl, length_postprocess_hotels fm _ _ _⟩

theorem hotels_fold_inv (fm : FloatModel) (req : Hotels.HotelSearchRequest) :
    ∀ (gathered : List (CallResult Hotels.HotelOption)) (st : Hotels.HLoopState),
      (st.emissions.length = if st.tentativeEmitted then 1 else 0) →
      (∀ e ∈ st.emissions, e.1 = ResultStatus.tentative
          ∧ e.2.length ≤ (min 3 req.limit).toNat) →
      ((gathered.foldl (Hotels.hotels_search_loop_step fm req true) st).emissions.length
          = if (gathered.foldl (Hotels.hotels_search_loop_step fm req true)
              st).tentativeEmitted then 1 else 0)
      ∧ (∀ e ∈ (gathered.foldl (Hotels.hotels_search_loop_step fm req true) st).emissions,
          e.1 = ResultStatus.tentative ∧ e.2.length ≤ (min 3 req.limit).toNat) := by
  intro gathered
  induction gathered with
  | nil => intro st h2 h3; exact ⟨h2, h3⟩
  | cons g gs ih =>
    intro st h2 h3
    obtain ⟨g2, g3⟩ := hotels_loop_step_inv fm req st g h2 h3
    rw [List.foldl_cons]
    exact ih (Hotels.hotels_search_loop_step fm req true st g) g2 g3

theorem countStatus_tentative_final_single {α : Type} (F : List α) :
    countStatus ResultStatus.tentative [(ResultStatus.final, F)] = 0
    ∧ countStatus ResultStatus.final [(ResultStatus.final, F)] = 1 := by
  constructor <;> simp [countStatus]

theorem emissions_summary {α : Type} (em E : List (ResultStatus × List α)) (F : List α)
    (cap : ℕ)
    (hE : E = if F.isEmpty then em else em ++ [(ResultStatus.final, F)])
    (emLen : em.length ≤ 1)
    (hall : ∀ e ∈ em, e.1 = ResultStatus.tentative ∧ e.2.length ≤ cap) :
    countStatus ResultStatus.tentative E ≤ 1
    ∧ countStatus ResultStatus.final E = (if F.isEmpty then 0 else 1)
    ∧ E.length ≤ 2
    ∧ (∀ e ∈ E, e.1 = ResultStatus.tentative → e.2.length ≤ cap) := by
  cases hF : F.isEmpty with
  | true =>
    rw [hF, if_pos rfl] at hE
    subst hE
    refine ⟨le_trans (countStatus_le_length _ _) emLen, ?_, by omega, ?_⟩
    · rw [if_pos rfl]
      exact countStatus_final_eq_zero _ (fun e he => (hall e he).1)
    · intro e he _
      exact (hall e he).2
  | false =>
    rw [hF, if_neg (by decide : ¬ (false = true))] at hE
    subst hE
    refine ⟨?_, ?_, ?_, ?_⟩
    · rw [countStatus_append, (countStatus_tentative_final_single F).1]
      have h := le_trans (countStatus_le_length ResultStatus.tentative em) emLen
      omega
    · rw [countStatus_append, countStatus_final_eq_zero em (fun e he => (hall e he).1),
        (countStatus_tentative_final_single F).2, if_neg (by decide : ¬ (false = true))]
    · rw [List.length_append]
      simp only [List.length_singleton]
      omega
    · intro e he ht
      rcases List.mem_append.1 he with h | h
      · exact (hall e h).2
      · rw [List.mem_singleton.1 h] at ht
        cases ht

theorem flights_search_summary (fm : FloatModel) (freq : Flights.FlightSearchRequest)
    (hfl : 1 ≤ freq.limit) (batches : List (List Flights.FlightOption)) (timedOut : Bool) :
    countStatus ResultStatus.tentative
      (Flights.flights_search_model fm freq batches true timedOut).1 ≤ 1
    ∧ countStatus ResultStatus.final
        (Flights.flights_search_model fm freq batches true timedOut).1
        = (if (Flights.flights_search_model fm freq batches true timedOut).2.isEmpty then 0
           else 1)
    ∧ (Flights.flights_search_model fm freq batches true timedOut).1.length ≤ 2
    ∧ (∀ e ∈ (Flights.flights_search_model fm freq batches true timedOut).1,
        e.1 = ResultStatus.tentative → e.2.length ≤ (min 3 freq.limit).toNat)
    ∧ ((∃ e ∈ (Flights.flights_search_model fm freq batches true timedOut).1,
        e.1 = ResultStatus.tentative) ↔ batches.flatten ≠ []) := by
  obtain ⟨i1, i2, i3, i4⟩ := flights_fold_inv fm freq hfl batches ⟨[], false, []⟩ rfl rfl
    (fun e he => absurd he (List.not_mem_nil e))
  simp only [Flights.flights_search_model]
  set st2 := batches.foldl (Flights.flights_search_loop_step fm freq true)
      ⟨[], false, []⟩ with hst
  set F := Flights.postprocess fm (if timedOut = true then [] else st2.results)
      freq.user_preference freq.limit.toNat with hFdef
  have hE : (if (true && !F.isEmpty) = true
        then st2.emissions ++ [(ResultStatus.final, F)] else st2.emissions)
      = (if F.isEmpty then st2.emissions
         else st2.emissions ++ [(ResultStatus.final, F)]) := by
    cases hf : F.isEmpty <;> rfl
  have emLen : st2.emissions.length ≤ 1 := by
    rw [i2]
    split <;> omega
  obtain ⟨s1, s2, s3, s4⟩ := emissions_summary st2.emissions
    (if F.isEmpty then st2.emissions else st2.emissions ++ [(ResultStatus.final, F)]) F
    (min 3 freq.limit).toNat rfl emLen i3
  rw [hE]
  refine ⟨s1, s2, s3, s4, ?_⟩
  constructor
  · rintro ⟨e, he, het⟩
    have hem : e ∈ st2.emissions := by
      cases hf : F.isEmpty with
      | true =>
        rw [hf, if_pos rfl] at he
        exact he
      | false =>
        rw [hf, if_neg (by decide : ¬ (false = true))] at he
        rcases List.mem_append.1 he with h | h
        · exact h
        · rw [List.mem_singleton.1 h] at het
          cases het
    have hlen : st2.emissions ≠ [] := List.ne_nil_of_mem hem
    have hemit : st2.tentativeEmitted = true := by
      cases he2 : st2.tentativeEmitted
      · rw [he2] at i2
        simp only [if_neg (by decide : ¬ (false = true))] at i2
        exact absurd (List.length_eq_zero.1 i2) hlen
      · rfl
    have hres : st2.results ≠ [] := by
      rw [hemit] at i1
      intro hh
      rw [hh] at i1
      cases i1
    rw [i4, List.nil_append] at hres
    exact hres
  · intro hne
    have hres : st2.results ≠ [] := by
      rw [i4, List.nil_append]
      exact hne
    have hemit : st2.tentativeEmitted = true := by
      rw [i1, isEmpty_false_of_ne_nil _ hres]
      rfl
    have hlen1 : st2.emissions.length = 1 := by
      rw [i2, hemit]
      rfl
    obtain ⟨e, hee⟩ := List.length_eq_one.1 hlen1
    have hmem : e ∈ st2.emissions := by
      rw [hee]
      exact List.mem_singleton_self e
    refine ⟨e, ?_, (i3 e hmem).1⟩
    cases hf : F.isEmpty with
    | true =>
      rw [if_pos rfl]
      exact hmem
    | false =>
      rw [if_neg (by decide : ¬ (false = true))]
      exact List.mem_append_left _ hmem

theorem hotels_provider_path_summary (fm : FloatModel) (req : Hotels.HotelSearchRequest)
    (cache1 : List (String × Hotels.CacheEntry)) (key : String)
    (gathered : List (CallResult Hotels.HotelOption)) (timedOut useCache : Bool) (now2 : ℚ) :
    countStatus ResultStatus.tentative
      (Hotels.hotels_provider_path fm req cache1 key gathered timedOut true useCache now2).1 ≤ 1
    ∧ countStatus ResultStatus.final
        (Hotels.hotels_provider_path fm req cache1 key gathered timedOut true useCache now2).1
        = (if (Hotels.hotels_provider_path fm req cache1 key gathered timedOut true useCache
            now2).2.1.isEmpty then 0 else 1)
    ∧ (Hotels.hotels_provider_path fm req cache1 key gathered timedOut true useCache
        now2).1.length ≤ 2
    ∧ (∀ e ∈ (Hotels.hotels_provider_path fm req cache1 key gathered timedOut true useCache
        now2).1, e.1 = ResultStatus.tentative → e.2.length ≤ (min 3 req.limit).toNat) := by
  obtain ⟨i2, i3⟩ := hotels_fold_inv fm req gathered ⟨[], false, []⟩ rfl
    (fun e he => absurd he (List.not_mem_nil e))
  simp only [Hotels.hotels_provider_path]
  set st2 := gathered.foldl (Hotels.hotels_search_loop_step fm req true) ⟨[], false, []⟩
    with hst
  set F := Hotels.postprocess fm (if timedOut = true then [] else st2.results)
    req.user_preference req.limit.toNat with hFdef
  have hE : (if (true && !F.isEmpty) = true
        then st2.emissions ++ [(ResultStatus.final, F)] else st2.emissions)
      = (if F.isEmpty then st2.emissions
         else st2.emissions ++ [(ResultStatus.final, F)]) := by
    cases hf : F.isEmpty <;> rfl
  have emLen : st2.emissions.length ≤ 1 := by
    rw [i2]
    split <;> omega
  obtain ⟨s1, s2, s3, s4⟩ := emissions_summary st2.emissions
    (if F.isEmpty then st2.emissions else st2.emissions ++ [(ResultStatus.final, F)]) F
    (min 3 req.limit).toNat rfl emLen i3
  rw [hE]
  exact ⟨s1, s2, s3, s4⟩

theorem hotels_search_summary (fm : FloatModel) (req : Hotels.HotelSearchRequest)
    (cache : List (String × Hotels.CacheEntry)) (now now2 : ℚ)
    (gathered : List (CallResult Hotels.HotelOption)) (timedOut useCache : Bool) :
    countStatus ResultStatus.tentative
      (Hotels.hotels_search_model fm req cache now now2 gathered timedOut true useCache).1 ≤ 1
    ∧ countStatus ResultStatus.final
        (Hotels.hotels_search_model fm req cache now now2 gathered timedOut true useCache).1
        = (if (Hotels.hotels_search_model fm req cache now now2 gathered timedOut true
            useCache).2.1.isEmpty then 0 else 1)
    ∧ (Hotels.hotels_search_model fm req cache now now2 gathered timedOut true
        useCache).1.length ≤ 2
    ∧ (∀ e ∈ (Hotels.hotels_search_model fm req cache now now2 gathered timedOut true
        useCache).1, e.1 = ResultStatus.tentative → e.2.length ≤ (min 3 req.limit).toNat) := by
  simp only [Hotels.hotels_search_model]
  cases hif : (if useCache = true then getAssoc cache (Hotels.hotels_cache_key fm req)
      else none) with
  | none => exact hotels_provider_path_summary fm req cache _ gathered timedOut useCache now2
  | some entry =>
    by_cases hexp : now < entry.expires_at
    · simp only [if_pos hexp]
      cases hce : (entry.options.take req.limit.toNat).isEmpty with
      | true =>
        rw [if_neg (by decide : ¬ ((true && !true) = true)), if_pos rfl]
        refine ⟨by simp [countStatus], by simp [countStatus], by simp, ?_⟩
        intro e he
        cases he
      | false =>
        rw [if_pos (by decide : (true && !false) = true),
          if_neg (by decide : ¬ (false = true))]
        refine ⟨?_, ?_, by simp, ?_⟩
        · rw [(countStatus_tentative_final_single _).1]
          omega
        · exact (countStatus_tentative_final_single _).2
        · intro e he ht
          rw [List.mem_singleton.1 he] at ht
          cases ht
    · simp only [if_neg hexp]
      exact hotels_provider_path_summary fm req _ _ gathered timedOut useCache now2

/-- C7: when a callback is supplied (`on_partial` present, modelled as
`hasCallback = true`), each facade invokes it at most twice per call: at
most one tentative emission — for flights, emitted exactly when some
completed provider batch contributed an item — whose option list is
capped at `min(3, limit)` items, plus one final emission exactly when the
returned final list is non-empty. -/
theorem C7_callback_invocations
    (fm : FloatModel) (freq : Flights.FlightSearchRequest) (hfl : 1 ≤ freq.limit)
    (batches : List (List Flights.FlightOption)) (ftimedOut : Bool)
    (hreq : Hotels.HotelSearchRequest) (cache : List (String × Hotels.CacheEntry))
    (now now2 : ℚ) (gathered : List (CallResult Hotels.HotelOption))
    (htimedOut huseCache : Bool) :
    (countStatus ResultStatus.tentative
        (Flights.flights_search_model fm freq batches true ftimedOut).1 ≤ 1
      ∧ countStatus ResultStatus.final
          (Flights.flights_search_model fm freq batches true ftimedOut).1
          = (if (Flights.flights_search_model fm freq batches true ftimedOut).2.isEmpty
             then 0 else 1)
      ∧ (Flights.flights_search_model fm freq batches true ftimedOut).1.length ≤ 2
      ∧ (∀ e ∈ (Flights.flights_search_model fm freq batches true ftimedOut).1,
          e.1 = ResultStatus.tentative → e.2.length ≤ (min 3 freq.limit).toNat)
      ∧ ((∃ e ∈ (Flights.flights_search_model fm freq batches true ftimedOut).1,
          e.1 = ResultStatus.tentative) ↔ batches.flatten ≠ []))
    ∧ (countStatus ResultStatus.tentative
        (Hotels.hotels_search_model fm hreq cache now now2 gathered htimedOut true
          huseCache).1 ≤ 1
      ∧ countStatus ResultStatus.final
          (Hotels.hotels_search_model fm hreq cache now now2 gathered htimedOut true
            huseCache).1
          = (if (Hotels.hotels_search_model fm hreq cache now now2 gathered htimedOut true
              huseCache).2.1.isEmpty then 0 else 1)
      ∧ (Hotels.hotels_search_model fm hreq cache now now2 gathered htimedOut true
          huseCache).1.length ≤ 2
      ∧ (∀ e ∈ (Hotels.hotels_search_model fm hreq cache now now2 gathered htimedOut true
          huseCache).1, e.1 = ResultStatus.tentative
          → e.2.length ≤ (min 3 hreq.limit).toNat)) :=
  ⟨flights_search_summary fm freq hfl batches ftimedOut,
   hotels_search_summary fm hreq cache now now2 gathered htimedOut huseCache⟩

/-- Witness for C7 at concrete inputs (one provider batch each). -/
theorem C7_witness :
    1 ≤ fReq1.limit
    ∧ (Flights.flights_search_model fm0 fReq1 [[cfA]] true false).1.length ≤ 2
    ∧ (Hotels.hotels_search_model fm0 reqCheapest [] 0 0 [CallResult.ok [hOpt1]] false true
        true).1.length ≤ 2 :=
  ⟨by decide,
   (C7_callback_invocations fm0 fReq1 (by decide) [[cfA]] false reqCheapest [] 0 0
     [CallResult.ok [hOpt1]] false true).1.2.2.1,
   (C7_callback_invocations fm0 fReq1 (by decide) [[cfA]] false reqCheapest [] 0 0
     [CallResult.ok [hOpt1]] false true).2.2.2.1⟩

/-! ### Characterizations of the hotels search paths -/

theorem hotels_search_model_hit (fm : FloatModel) (req : Hotels.HotelSearchRequest)
    (cache : List (String × Hotels.CacheEntry)) (now now2 : ℚ)
    (gathered : List (CallResult Hotels.HotelOption)) (timedOut hasCallback useCache : Bool)
    (entry : Hotels.CacheEntry)
    (hif : (if useCache = true then getAssoc cache (Hotels.hotels_cache_key fm req)
        else none) = some entry)
    (hexp : now < entry.expires_at) :
    Hotels.hotels_search_model fm req cache now now2 gathered timedOut hasCallback useCache
      = (if (hasCallback && !(entry.options.take req.limit.toNat).isEmpty) = true
           then [(ResultStatus.final, entry.options.take req.limit.toNat)] else [],
         entry.options.take req.limit.toNat, cache) := by
  simp only [Hotels.hotels_search_model, hif, if_pos hexp]

theorem hotels_search_model_expired (fm : FloatModel) (req : Hotels.HotelSearchRequest)
    (cache : List (String × Hotels.CacheEntry)) (now now2 : ℚ)
    (gathered : List (CallResult Hotels.HotelOption)) (timedOut hasCallback useCache : Bool)
    (entry : Hotels.CacheEntry)
    (hif : (if useCache = true then getAssoc cache (Hotels.hotels_cache_key fm req)
        else none) = some entry)
    (hexp : ¬ now < entry.expires_at) :
    Hotels.hotels_search_model fm req cache now now2 gathered timedOut hasCallback useCache
      = Hotels.hotels_provider_path fm req
          (eraseAssoc cache (Hotels.hotels_cache_key fm req))
          (Hotels.hotels_cache_key fm req) gathered timedOut hasCallback useCache now2 := by
  simp only [Hotels.hotels_search_model, hif, if_neg hexp]

theorem hotels_search_model_miss (fm : FloatModel) (req : Hotels.HotelSearchRequest)
    (cache : List (String × Hotels.CacheEntry)) (now now2 : ℚ)
    (gathered : List (CallResult Hotels.HotelOption)) (timedOut hasCallback useCache : Bool)
    (hif : (if useCache = true then getAssoc cache (Hotels.hotels_cache_key fm req)
        else none) = none) :
    Hotels.hotels_search_model fm req cache now now2 gathered timedOut hasCallback useCache
      = Hotels.hotels_provider_path fm req cache (Hotels.hotels_cache_key fm req) gathered
          timedOut hasCallback useCache now2 := by
  simp only [Hotels.hotels_search_model, hif]

theorem hotels_provider_path_cache (fm : FloatModel) (req : Hotels.HotelSearchRequest)
    (cache1 : List (String × Hotels.CacheEntry)) (key : String)
    (gathered : List (CallResult Hotels.HotelOption)) (timedOut hasCallback useCache : Bool)
    (now2 : ℚ) (emissions : List (ResultStatus × List Hotels.HotelOption))
    (final : List Hotels.HotelOption) (cache2 : List (String × Hotels.CacheEntry))
    (hrun : Hotels.hotels_provider_path fm req cache1 key gathered timedOut hasCallback
        useCache now2 = (emissions, final, cache2)) :
    (final = [] → cache2 = cache1)
    ∧ (∀ k e, getAssoc cache2 k = some e →
        getAssoc cache1 k = some e ∨ (k = key ∧ e.options = final ∧ final ≠ [])) := by
  simp only [Hotels.hotels_provider_path] at hrun
  have hf : Hotels.postprocess fm
      (if timedOut = true then []
       else (gathered.foldl (Hotels.hotels_search_loop_step fm req hasCallback)
         ⟨[], false, []⟩).results) req.user_preference req.limit.toNat = final :=
    congrArg (fun t => t.2.1) hrun
  have hc : (if (useCache && !(Hotels.postprocess fm
        (if timedOut = true then []
         else (gathered.foldl (Hotels.hotels_search_loop_step fm req hasCallback)
           ⟨[], false, []⟩).results) req.user_preference req.limit.toNat).isEmpty) = true
      then setAssoc cache1 key
        ⟨now2 + Hotels.HOTEL_CACHE_TTL_SECONDS,
         Hotels.postprocess fm
           (if timedOut = true then []
            else (gathered.foldl (Hotels.hotels_search_loop_step fm req hasCallback)
              ⟨[], false, []⟩).results) req.user_preference req.limit.toNat⟩
      else cache1) = cache2 :=
    congrArg (fun t => t.2.2) hrun
  rw [hf] at hc
  constructor
  · intro hfe
    rw [← hc, hfe]
    simp
  · intro k e hke
    cases hfin : final.isEmpty with
    | true =>
      rw [hfin] at hc
      simp only [Bool.not_true, Bool.and_false, Bool.false_eq_true, if_false] at hc
      rw [← hc] at hke
      exact Or.inl hke
    | false =>
      have hfinne : final ≠ [] := by
        intro hh
        rw [hh] at hfin
        cases hfin
      rw [hfin] at hc
      cases hu : useCache with
      | false =>
        rw [hu] at hc
        simp only [Bool.false_and, Bool.false_eq_true, if_false] at hc
        rw [← hc] at hke
        exact Or.inl hke
      | true =>
        rw [hu] at hc
        simp only [Bool.not_false, Bool.and_true, if_true] at hc
        rw [← hc] at hke
        by_cases hk : k = key
        · subst hk
          rw [getAssoc_setAssoc_self] at hke
          have he2 : e = ⟨now2 + Hotels.HOTEL_CACHE_TTL_SECONDS, final⟩ := by
            cases hke
            rfl
          exact Or.inr ⟨rfl, by rw [he2], hfinne⟩
        · rw [getAssoc_setAssoc_ne cache1 key k _ hk] at hke
          exact Or.inl hke

/-- C2 (code evaluation at the failing input): when the agent deadline
fires after one provider batch `[cfA]` has been collected, the code
returns `[]` — the `except asyncio.TimeoutError` branch replaces the pool
with `[]` — while the dedup+rank+cap of the collected pool demanded by the
claim is non-empty (the code even carries the comment "return whatever we
have, deduped + ranked" next to the discard). -/
theorem C2_timeout_discards_pool :
    (Flights.flights_search_model fm0 fReq1 [[cfA]] false true).2 = []
    ∧ Flights.postprocess fm0 [cfA] fReq1.user_preference fReq1.limit.toNat ≠ [] := by
  constructor
  · rfl
  · exact postprocess_flights_ne_nil fm0 [cfA] fReq1.user_preference fReq1.limit.toNat
      (by decide) (by decide)

/-- C10 counterexample: with an expired entry for the request key in the
cache and an empty provider round, the final list is empty and no entry is
written, but the cache is NOT left unchanged — the expired entry has been
popped, so the resulting cache differs from the original. -/
theorem C10_counterexample :
    (Hotels.hotels_search_model fm0 reqCheapest expiredCacheC10 100 100 [] false false
      true).2.1 = []
    ∧ (Hotels.hotels_search_model fm0 reqCheapest expiredCacheC10 100 100 [] false false
        true).2.2 = []
    ∧ expiredCacheC10 ≠ [] := by
  refine ⟨?_, ?_, by decide⟩
  · rfl
  · rfl

/-- C10 (amended): when the final list is empty the search writes no cache
entry — the cache afterwards agrees with the cache before on every key,
except that an expired entry for the request's own key may have been
removed — and every entry the search does write holds a non-empty options
list. -/
theorem C10_no_write_on_empty_final
    (fm : FloatModel) (req : Hotels.HotelSearchRequest)
    (cache : List (String × Hotels.CacheEntry)) (now now2 : ℚ)
    (gathered : List (CallResult Hotels.HotelOption)) (timedOut hasCallback useCache : Bool)
    (hnd : (cache.map Prod.fst).Nodup)
    (emissions : List (ResultStatus × List Hotels.HotelOption))
    (final : List Hotels.HotelOption) (cache2 : List (String × Hotels.CacheEntry))
    (hrun : Hotels.hotels_search_model fm req cache now now2 gathered timedOut hasCallback
        useCache = (emissions, final, cache2)) :
    (final = [] → ∀ k, getAssoc cache2 k = getAssoc cache k
        ∨ (k = Hotels.hotels_cache_key fm req ∧ getAssoc cache2 k = none))
    ∧ (∀ k e, getAssoc cache2 k = some e → getAssoc cache k = some e ∨ e.options ≠ []) := by
  cases hif : (if useCache = true then getAssoc cache (Hotels.hotels_cache_key fm req)
      else none) with
  | none =>
    rw [hotels_search_model_miss fm req cache now now2 gathered timedOut hasCallback useCache
      hif] at hrun
    obtain ⟨p1, p2⟩ := hotels_provider_path_cache fm req cache _ gathered timedOut
      hasCallback useCache now2 emissions final cache2 hrun
    constructor
    · intro hfe k
      rw [p1 hfe]
      exact Or.inl rfl
    · intro k e hke
      rcases p2 k e hke with h | ⟨hk2, hopt, hne⟩
      · exact Or.inl h
      · refine Or.inr ?_
        rw [hopt]
        exact hne
  | some entry =>
    by_cases hexp : now < entry.expires_at
    · rw [hotels_search_model_hit fm req cache now now2 gathered timedOut hasCallback useCache
        entry hif hexp] at hrun
      have hc : cache2 = cache := (congrArg (fun t => t.2.2) hrun).symm
      constructor
      · intro _ k
        rw [hc]
        exact Or.inl rfl
      · intro k e hke
        rw [hc] at hke
        exact Or.inl hke
    · rw [hotels_search_model_expired fm req cache now now2 gathered timedOut hasCallback
        useCache entry hif hexp] at hrun
      obtain ⟨p1, p2⟩ := hotels_provider_path_cache fm req _ _ gathered timedOut
        hasCallback useCache now2 emissions final cache2 hrun
      constructor
      · intro hfe k
        rw [p1 hfe]
        by_cases hk : k = Hotels.hotels_cache_key fm req
        · subst hk
          exact Or.inr ⟨rfl, getAssoc_eraseAssoc_self cache _ hnd⟩
        · exact Or.inl (getAssoc_eraseAssoc_ne cache _ k hk)
      · intro k e hke
        rcases p2 k e hke with h | ⟨hk, hopt, hne⟩
        · by_cases hk : k = Hotels.hotels_cache_key fm req
          · subst hk
            rw [getAssoc_eraseAssoc_self cache _ hnd] at h
            cases h
          · rw [getAssoc_eraseAssoc_ne cache _ k hk] at h
            exact Or.inl h
        · refine Or.inr ?_
          rw [hopt]
          exact hne

/-- Witness for C10 (amended): an empty search against an empty cache
leaves every lookup unchanged. -/
theorem C10_witness :
    getAssoc ((Hotels.hotels_search_model fm0 reqCheapest [] 0 0 [] false false true).2.2) "k"
        = getAssoc ([] : List (String × Hotels.CacheEntry)) "k"
      ∨ ("k" = Hotels.hotels_cache_key fm0 reqCheapest
         ∧ getAssoc ((Hotels.hotels_search_model fm0 reqCheapest [] 0 0 [] false false
             true).2.2) "k" = none) :=
  (C10_no_write_on_empty_final fm0 reqCheapest [] 0 0 [] false false true (by decide)
    [] [] [] rfl).1 rfl "k"

/-- C1 (code evaluation at the failing input): `_cache_key` does not
include `user_preference`, so two requests identical except for
`cheapest` vs `luxury` share one cache key; within the TTL the second
(luxury) request hits the entry written by the first (cheapest) request
and is served the ranking computed under `cheapest` without invoking any
provider (`gathered = []`), contradicting the claimed invariant. -/
theorem C1_cache_hit_across_preferences :
    Hotels.hotels_cache_key fm0 reqLuxury = Hotels.hotels_cache_key fm0 reqCheapest
    ∧ reqLuxury.user_preference ≠ reqCheapest.user_preference
    ∧ (Hotels.hotels_search_model fm0 reqCheapest [] 0 0 [CallResult.ok [hOpt1]] false false
        true).2.1 = [scoredHOpt1C]
    ∧ (Hotels.hotels_search_model fm0 reqCheapest [] 0 0 [CallResult.ok [hOpt1]] false false
        true).2.2 = cacheAfterRun1
    ∧ (Hotels.hotels_search_model fm0 reqLuxury cacheAfterRun1 1 1 [] false false true).2.1
        = [scoredHOpt1C]
    ∧ [scoredHOpt1C] ≠ ([] : List Hotels.HotelOption) := by
  have hkey : Hotels.hotels_cache_key fm0 reqLuxury
      = Hotels.hotels_cache_key fm0 reqCheapest := by decide
  refine ⟨hkey, by decide, rfl, rfl, ?_, List.cons_ne_nil _ _⟩
  have hif : (if true = true
        then getAssoc cacheAfterRun1 (Hotels.hotels_cache_key fm0 reqLuxury) else none)
      = some ⟨(0 : ℚ) + Hotels.HOTEL_CACHE_TTL_SECONDS, [scoredHOpt1C]⟩ := by
    rw [if_pos rfl, hkey]
    simp [cacheAfterRun1, getAssoc]
  have hexp : (1 : ℚ) < ((0 : ℚ) + Hotels.HOTEL_CACHE_TTL_SECONDS : ℚ) := by
    norm_num [Hotels.HOTEL_CACHE_TTL_SECONDS]
  rw [hotels_search_model_hit fm0 reqLuxury cacheAfterRun1 1 1 [] false false true
    ⟨(0 : ℚ) + Hotels.HOTEL_CACHE_TTL_SECONDS, [scoredHOpt1C]⟩ hif hexp]
  rfl

end TripMate
